import Mathlib

/-!
# go-syslog: verification of the parser family and ingestion pipeline

Shallow embedding of the GLMONTER/go-syslog syslog receiver library:
the RFC 6587 octet-counted framer, the RFC 3164 parser with its vendor
dialects, the RFC 5424 parser with its Cisco-ASA and Unix-timestamp
deviations, and the receiver's record-assembly step.

Buffers are `List Char`; the Go parsers' mutable cursor becomes explicit
cursor arithmetic; `time.Now()` becomes distinguished symbolic values;
out-of-range indexing (a Go runtime panic) becomes a distinguished
`fault` outcome.
-/

set_option maxRecDepth 10000

namespace GoSyslog

/-- Byte/char buffers of the Go code are modelled as lists of characters. -/
abbrev Str := List Char

/-- `syslogparser.IsDigit`: ASCII decimal digit test. -/
def IsDigit (c : Char) : Bool := '0' ≤ c && c ≤ '9'

/-- Numeric value of a decimal digit character. -/
def dval (c : Char) : Nat := c.toNat - '0'.toNat

/-- Value of a decimal digit string (most significant digit first). -/
def valD (ds : Str) : Nat := ds.foldl (fun acc c => 10 * acc + dval c) 0

/-- Decimal rendering of a natural number (as Go `strconv.Itoa` /
`fmt.Fprintf("%d")` produce it). -/
def toDec (n : Nat) : Str :=
  if h : n < 10 then [Nat.digitChar n]
  else toDec (n / 10) ++ [Nat.digitChar (n % 10)]
  decreasing_by exact Nat.div_lt_self (by omega) (by omega)

theorem valD_append_single (xs : Str) (c : Char) :
    valD (xs ++ [c]) = 10 * valD xs + dval c := by
  simp [valD, List.foldl_append]

theorem dval_digitChar {d : Nat} (h : d < 10) : dval (Nat.digitChar d) = d := by
  interval_cases d <;> decide

theorem isDigit_digitChar {d : Nat} (h : d < 10) : IsDigit (Nat.digitChar d) = true := by
  interval_cases d <;> decide

theorem valD_toDec (n : Nat) : valD (toDec n) = n := by
  induction n using Nat.strong_induction_on with
  | _ n ih =>
    by_cases h : n < 10
    · rw [toDec, dif_pos h]
      simp [valD, dval_digitChar h]
    · rw [toDec, dif_neg h, valD_append_single,
        ih (n / 10) (Nat.div_lt_self (by omega) (by omega)),
        dval_digitChar (Nat.mod_lt _ (by omega))]
      omega

theorem toDec_all_digits (n : Nat) : ∀ c ∈ toDec n, IsDigit c = true := by
  induction n using Nat.strong_induction_on with
  | _ n ih =>
    by_cases h : n < 10
    · rw [toDec, dif_pos h]
      intro c hc
      simp only [List.mem_singleton] at hc
      subst hc
      exact isDigit_digitChar h
    · rw [toDec, dif_neg h]
      intro c hc
      rcases List.mem_append.mp hc with h1 | h1
      · exact ih (n / 10) (Nat.div_lt_self (by omega) (by omega)) c h1
      · simp only [List.mem_singleton] at h1
        subst h1
        exact isDigit_digitChar (Nat.mod_lt _ (by omega))

theorem toDec_ne_nil (n : Nat) : toDec n ≠ [] := by
  rw [toDec]
  split <;> simp

theorem digit_ne_space {c : Char} (h : IsDigit c = true) : c ≠ ' ' := by
  intro hc
  subst hc
  simp [IsDigit] at h

/-! ## RFC 6587 octet-counted framer

Modelled from the spec: the Go source file `format/rfc6587.go` holding the
split function is not under `src/` (only its test is).  Per §4.4 of the
spec, each message is preceded by its decimal ASCII length and one space;
the framer reads decimal digits until a space, parses them as the octet
count `n`, requests more input when fewer than `n` payload bytes are
available before end of input, emits exactly the next `n` bytes as the
token, and fails with a framing error when the count field contains
non-digits, the byte after the count is not a space, or end of input
occurs before `n` payload bytes. -/

/-- One result of the split function (advance count, token, error or
request for more data — the `bufio.SplitFunc` contract). -/
inductive Rfc6587Scan where
  | finished
  | needMoreData
  | frame (advance : Nat) (token : Str)
  | frameError
deriving DecidableEq, Repr

/-- Modelled from the spec: the RFC 6587 split function (§4.4). -/
def rfc6587Split (data : Str) (atEOF : Bool) : Rfc6587Scan :=
  if data = [] then
    (if atEOF then .finished else .needMoreData)
  else
    let countField := data.takeWhile (fun c => c ≠ ' ')
    match data.dropWhile (fun c => c ≠ ' ') with
    | [] =>
        -- no space found yet: the count field is still incomplete
        if atEOF then .frameError else .needMoreData
    | _ :: payload =>
        if countField = [] || !(countField.all IsDigit) then .frameError
        else
          let n := valD countField
          if payload.length < n then
            (if atEOF then .frameError else .needMoreData)
          else .frame (countField.length + 1 + n) (payload.take n)

/-- Drive the split function over a fully-buffered input (`atEOF = true`),
collecting the emitted tokens; the boolean records whether the final scan
failed (rather than reaching clean end of input). -/
def rfc6587ScanGo : Nat → Str → List Str × Bool
  | 0, _ => ([], true)
  | fuel + 1, data =>
    match rfc6587Split data true with
    | .finished => ([], false)
    | .needMoreData => ([], true)
    | .frameError => ([], true)
    | .frame adv tok =>
        let r := rfc6587ScanGo fuel (data.drop adv)
        (tok :: r.1, r.2)

/-- Scan a complete input: enough fuel for every frame (each frame
advances by at least two bytes). -/
def rfc6587ScanAll (data : Str) : List Str × Bool :=
  rfc6587ScanGo (data.length + 1) data

/-- The octet-counted frame of one message: decimal length, space, payload
(as the test `TestRFC6587_GetSplitFuncMultiSplit` builds them). -/
def rfc6587Frame (m : Str) : Str := toDec m.length ++ ' ' :: m

theorem takeWhile_until_space (xs : Str) (hx : ∀ c ∈ xs, c ≠ ' ') (ys : Str) :
    (xs ++ ' ' :: ys).takeWhile (fun c => c ≠ ' ') = xs := by
  induction xs with
  | nil => simp [List.takeWhile]
  | cons a t ih =>
      have ha : a ≠ ' ' := hx a (by simp)
      simp only [List.cons_append, List.takeWhile_cons]
      rw [if_pos (by simpa using ha)]
      rw [ih (fun c hc => hx c (by simp [hc]))]

theorem dropWhile_until_space (xs : Str) (hx : ∀ c ∈ xs, c ≠ ' ') (ys : Str) :
    (xs ++ ' ' :: ys).dropWhile (fun c => c ≠ ' ') = ' ' :: ys := by
  induction xs with
  | nil => simp [List.dropWhile]
  | cons a t ih =>
      have ha : a ≠ ' ' := hx a (by simp)
      simp only [List.cons_append, List.dropWhile_cons]
      rw [if_pos (by simpa using ha)]
      exact ih (fun c hc => hx c (by simp [hc]))

/-- On a well-formed count field followed by a space and at least `n`
payload bytes, the split function emits exactly the first `n` payload
bytes. -/
theorem rfc6587Split_on_frame (count payload : Str)
    (hne : count ≠ []) (hd : count.all IsDigit = true)
    (hlen : valD count ≤ payload.length) :
    rfc6587Split (count ++ ' ' :: payload) true =
      .frame (count.length + 1 + valD count) (payload.take (valD count)) := by
  have hs : ∀ c ∈ count, c ≠ ' ' := by
    intro c hc
    exact digit_ne_space (by simpa using List.all_eq_true.mp hd c hc)
  unfold rfc6587Split
  rw [if_neg (by simp [hne])]
  simp only [takeWhile_until_space count hs payload, dropWhile_until_space count hs payload]
  rw [if_neg (by simp [hne, hd])]
  rw [if_neg (by omega)]

theorem rfc6587ScanGo_frames (ms : List (List Char)) :
    ∀ fuel, (ms.map rfc6587Frame).flatten.length + 1 ≤ fuel →
      rfc6587ScanGo fuel ((ms.map rfc6587Frame).flatten) = (ms, false) := by
  induction ms with
  | nil =>
      intro fuel hf
      match fuel, hf with
      | fuel + 1, _ => simp [rfc6587ScanGo, rfc6587Split]
  | cons m tl ih =>
      intro fuel hf
      simp only [List.map_cons, List.flatten_cons, List.length_append] at hf ⊢
      have hframe : rfc6587Frame m = toDec m.length ++ ' ' :: m := rfl
      have hlen1 : 1 ≤ (toDec m.length).length := by
        cases h : toDec m.length with
        | nil => exact absurd h (toDec_ne_nil _)
        | cons a t => simp
      match fuel, hf with
      | fuel + 1, hf =>
        rw [rfc6587ScanGo]
        rw [hframe, List.append_assoc, List.cons_append]
        rw [rfc6587Split_on_frame (toDec m.length) (m ++ (tl.map rfc6587Frame).flatten)
          (toDec_ne_nil _) (List.all_eq_true.mpr (toDec_all_digits _))
          (by rw [valD_toDec]; simp)]
        simp only [valD_toDec]
        have htake : (m ++ (tl.map rfc6587Frame).flatten).take m.length = m := by
          simp [List.take_append]
        have hdrop :
            (toDec m.length ++ ' ' :: (m ++ (tl.map rfc6587Frame).flatten)).drop
              ((toDec m.length).length + 1 + m.length) = (tl.map rfc6587Frame).flatten := by
          have : toDec m.length ++ ' ' :: (m ++ (tl.map rfc6587Frame).flatten) =
              (toDec m.length ++ ' ' :: m) ++ (tl.map rfc6587Frame).flatten := by
            simp
          rw [this]
          have hl : (toDec m.length ++ ' ' :: m).length =
              (toDec m.length).length + 1 + m.length := by
            simp
            omega
          rw [← hl, List.drop_left]
        rw [htake, hdrop]
        have hfuel2 : (tl.map rfc6587Frame).flatten.length + 1 ≤ fuel := by
          have : rfc6587Frame m = toDec m.length ++ ' ' :: m := rfl
          have : (rfc6587Frame m).length = (toDec m.length).length + 1 + m.length := by
            rw [this]; simp; omega
          omega
        rw [ih fuel hfuel2]

/-- C1. Feeding the concatenation of octet-counted frames of messages
`m₁..m_k` to the RFC 6587 split function yields exactly the `k` original
messages as tokens, and the scan ends without a framing error. -/
theorem rfc6587_scan_concat_frames (ms : List (List Char)) :
    rfc6587ScanAll ((ms.map rfc6587Frame).flatten) = (ms, false) :=
  rfc6587ScanGo_frames ms _ (by omega)

/-- C2. When the declared octet count `n` is smaller than the bytes that
naturally follow the count field — so that the leftover bytes cannot form
a valid next frame — the first scan emits exactly the first `n` payload
bytes and the immediately following scan fails with a framing error. -/
theorem rfc6587_short_count_token_then_error (count payload : Str) (n : Nat)
    (hne : count ≠ []) (hd : count.all IsDigit = true) (hn : valD count = n)
    (hlt : n < payload.length)
    (hbad : rfc6587Split (payload.drop n) true = .frameError) :
    rfc6587ScanAll (count ++ ' ' :: payload) = ([payload.take n], true) := by
  subst hn
  unfold rfc6587ScanAll
  have hlen : (count ++ ' ' :: payload).length + 1 = count.length + payload.length + 2 := by
    simp
    omega
  rw [hlen]
  rw [rfc6587ScanGo]
  rw [rfc6587Split_on_frame count payload hne hd (le_of_lt hlt)]
  have hdrop : (count ++ ' ' :: payload).drop (count.length + 1 + valD count) =
      payload.drop (valD count) := by
    have : count ++ ' ' :: payload = (count ++ [' ']) ++ payload := by simp
    rw [this]
    have h1 : count.length + 1 + valD count = (count ++ [' ']).length + valD count := by
      simp
    rw [h1, List.drop_append]
  dsimp only
  rw [hdrop]
  rw [rfc6587ScanGo, hbad]

/-- Witness for C2 at the test input of `TestRFC6587_GetSplitBadSplit`:
`"9 I am test.2 ab"` yields the 9-byte token `"I am test"` and then a
framing error. -/
theorem rfc6587_short_count_token_then_error_witness :
    rfc6587ScanAll ("9 I am test.2 ab".data) = (["I am test".data], true) := by
  have h := rfc6587_short_count_token_then_error "9".data "I am test.2 ab".data 9
    (by decide) (by decide) (by decide) (by decide) (by decide)
  exact h

/-! ## Time values

`time.Time` values are modelled symbolically: calls of `time.Now()` become
distinguished constructors (real time is not otherwise statable), civil
instants keep their parsed components, and Unix-epoch instants keep the
seconds and the fractional digit string (the Go code converts the
fraction to nanoseconds through `float64`; that conversion is kept
symbolic because IEEE rounding is not modelled). -/

/-- A `*time.Location` as the parsers produce them. -/
inductive GoZone where
  | utc
  | local
  | named (n : Str)
  | fixedOffset (neg : Bool) (h m : Nat)
deriving DecidableEq, Repr

/-- A `time.Time` value as produced by the parsers. -/
inductive GoTime where
  /-- `time.Now()` (raw). -/
  | nowRaw
  /-- `time.Now().UTC()`. -/
  | nowUTC
  /-- `time.Now().Round(time.Second)`. -/
  | nowRounded
  /-- `time.Date(y, mo, d, h, mi, s, ns, zone)` with in-range fields. -/
  | date (y mo d h mi s ns : Nat) (z : GoZone)
  /-- a year-0 timestamp repaired by `fixTimestampIfNeeded`: the year is
  replaced by the current year. -/
  | dateCY (mo d h mi s ns : Nat) (z : GoZone)
  /-- `time.Unix(sec, nsec)` where `nsec = int64(float64("0."+frac)*1e9)`;
  the fractional digits are kept symbolically. -/
  | unixFrac (sec : Nat) (frac : Str)
  /-- FortiOS `eventtime`: `time.Unix(n/1e9, n%1e9).UTC()`. -/
  | unixNsec (n : Nat)
deriving DecidableEq, Repr

/-- `fixTimestampIfNeeded`: rebuild the timestamp, substituting the
current year when the parsed year is zero (BSD stamps carry no year). -/
def fixTimestampIfNeeded : GoTime → GoTime
  | .date 0 mo d h mi s ns z => .dateCY mo d h mi s ns z
  | t => t

/-- Gregorian leap-year rule used by Go's date validation. -/
def isLeap (y : Nat) : Bool := (y % 4 == 0 && y % 100 != 0) || y % 400 == 0

/-- Days in a month, as Go's `time` package validates parsed days. -/
def daysIn (mo y : Nat) : Nat :=
  if mo = 2 then (if isLeap y then 29 else 28)
  else if mo = 4 || mo = 6 || mo = 9 || mo = 11 then 30
  else 31

/-! ### Go `time.Parse` for the fixed layouts the code uses

Each layout used by the source is modelled as an executable function that
consumes exactly the given value (Go's `Parse` errors on trailing
characters) and applies Go's range validation. -/

/-- Go `getnum` with `fixed = true`: exactly two digits. -/
def getnum2 : Str → Option (Nat × Str)
  | c1 :: c2 :: r => if IsDigit c1 && IsDigit c2 then some (10 * dval c1 + dval c2, r) else none
  | _ => none

/-- Go `getnum` with `fixed = false`: one digit, or two when the second
character is also a digit. -/
def getnumFlex : Str → Option (Nat × Str)
  | c1 :: c2 :: r =>
      if IsDigit c1 then
        (if IsDigit c2 then some (10 * dval c1 + dval c2, r) else some (dval c1, c2 :: r))
      else none
  | [c1] => if IsDigit c1 then some (dval c1, []) else none
  | [] => none

/-- Four fixed digits (Go `stdLongYear`). -/
def getnum4 : Str → Option (Nat × Str)
  | c1 :: c2 :: c3 :: c4 :: r =>
      if IsDigit c1 && IsDigit c2 && IsDigit c3 && IsDigit c4 then
        some (1000 * dval c1 + 100 * dval c2 + 10 * dval c3 + dval c4, r)
      else none
  | _ => none

/-- Month number from a three-letter English name (Go matches the name
table ASCII-case-insensitively). -/
def monthFromName (a b c : Char) : Option Nat :=
  match a.toLower, b.toLower, c.toLower with
  | 'j', 'a', 'n' => some 1
  | 'f', 'e', 'b' => some 2
  | 'm', 'a', 'r' => some 3
  | 'a', 'p', 'r' => some 4
  | 'm', 'a', 'y' => some 5
  | 'j', 'u', 'n' => some 6
  | 'j', 'u', 'l' => some 7
  | 'a', 'u', 'g' => some 8
  | 's', 'e', 'p' => some 9
  | 'o', 'c', 't' => some 10
  | 'n', 'o', 'v' => some 11
  | 'd', 'e', 'c' => some 12
  | _, _, _ => none

/-- Go's unsolicited fractional seconds: when the layout carries seconds
and the value continues with `'.'` and a digit, 1–9 fractional digits are
consumed and scaled to nanoseconds (10 or more digits are an error, which
`none` on the consumed-form signals). -/
def readOptFrac (s : Str) : Option (Nat × Str) :=
  match s with
  | '.' :: d :: _ =>
      if IsDigit d then
        let fd := (s.drop 1).takeWhile IsDigit
        if fd.length ≤ 9 then some (valD fd * 10 ^ (9 - fd.length), s.drop (1 + fd.length))
        else none
      else some (0, s)
  | _ => some (0, s)

/-- Shared tail of the civil-layout parsers: validate the ranges Go
checks (`day` against the month, hour 0–23, minute/second 0–59). -/
def mkDate (y mo d h mi s ns : Nat) (z : GoZone) : Option GoTime :=
  if 1 ≤ mo && mo ≤ 12 && 1 ≤ d && d ≤ daysIn mo y && h ≤ 23 && mi ≤ 59 && s ≤ 59 then
    some (.date y mo d h mi s ns z)
  else none

/-- `time.ParseInLocation(time.Stamp, v, loc)` — layout `"Jan _2 15:04:05"`,
applied to the 15-byte slice the RFC 3164 parser cuts.  The parsed year is
zero; the zone is the supplied location. -/
def goParseStamp (v : Str) (loc : GoZone) : Option GoTime :=
  match v with
  | a :: b :: c :: ' ' :: r =>
      match monthFromName a b c with
      | none => none
      | some mo =>
          -- `_2`: optional leading space, then one or two digits
          let r1 := if r.head? = some ' ' then r.drop 1 else r
          match getnumFlex r1 with
          | none => none
          | some (d, r2) =>
              match r2 with
              | ' ' :: r3 =>
                  match getnumFlex r3 with
                  | none => none
                  | some (h, r4) =>
                      match r4 with
                      | ':' :: r5 =>
                          match getnum2 r5 with
                          | none => none
                          | some (mi, r6) =>
                              match r6 with
                              | ':' :: r7 =>
                                  match getnum2 r7 with
                                  | none => none
                                  | some (s, r8) =>
                                      match readOptFrac r8 with
                                      | none => none
                                      | some (ns, r9) =>
                                          if r9 = [] then mkDate 0 mo d h mi s ns loc
                                          else none
                              | _ => none
                      | _ => none
              | _ => none
  | _ => none

/-- Time-offset tail `Z07:00` of `time.RFC3339`: `'Z'` means UTC, a
numeric `±HH:MM` offset of zero is normalised to UTC by Go, any other
numeric offset becomes a fixed zone. -/
def readISO8601Zone : Str → Option (GoZone × Str)
  | 'Z' :: r => some (.utc, r)
  | sign :: h1 :: h2 :: ':' :: m1 :: m2 :: r =>
      if (sign = '+' || sign = '-') && IsDigit h1 && IsDigit h2 && IsDigit m1 && IsDigit m2 then
        let oh := 10 * dval h1 + dval h2
        let om := 10 * dval m1 + dval m2
        if oh = 0 && om = 0 then some (.utc, r)
        else some (.fixedOffset (sign = '-') oh om, r)
      else none
  | _ => none

/-- `time.Parse(time.RFC3339, v)` (also covering `time.RFC3339Nano`,
whose only difference is an explicit fractional-seconds slot): layout
`"2006-01-02T15:04:05Z07:00"`, whole value consumed, ranges validated. -/
def goParseRFC3339 (v : Str) : Option GoTime :=
  match getnum4 v with
  | none => none
  | some (y, r1) =>
      match r1 with
      | '-' :: r2 =>
          match getnum2 r2 with
          | none => none
          | some (mo, r3) =>
              match r3 with
              | '-' :: r4 =>
                  match getnum2 r4 with
                  | none => none
                  | some (d, r5) =>
                      match r5 with
                      | 'T' :: r6 =>
                          match getnumFlex r6 with
                          | none => none
                          | some (h, r7) =>
                              match r7 with
                              | ':' :: r8 =>
                                  match getnum2 r8 with
                                  | none => none
                                  | some (mi, r9) =>
                                      match r9 with
                                      | ':' :: r10 =>
                                          match getnum2 r10 with
                                          | none => none
                                          | some (s, r11) =>
                                              match readOptFrac r11 with
                                              | none => none
                                              | some (ns, r12) =>
                                                  match readISO8601Zone r12 with
                                                  | some (z, []) => mkDate y mo d h mi s ns z
                                                  | _ => none
                                      | _ => none
                              | _ => none
                      | _ => none
              | _ => none
      | _ => none

/-- Zone-abbreviation tail of layouts ending in `MST`: a leading `"UTC"`
or a run of three or four upper-case letters (Go's `parseTimeZone`); the
name `"UTC"` resolves to UTC, other abbreviations to a named zone. -/
def readAbbrevZone (s : Str) : Option (GoZone × Str) :=
  if ['U', 'T', 'C'].isPrefixOf s then some (.utc, s.drop 3)
  else
    let run := s.takeWhile (fun c => 'A' ≤ c && c ≤ 'Z')
    if run.length = 3 || run.length = 4 then some (.named run, s.drop run.length)
    else none

/-- Shared body of the layouts `"2006-01-02 15:04:05"` (SonicWall). -/
def goParseSonicBody (v : Str) : Option (Nat × Nat × Nat × Nat × Nat × Nat × Nat × Str) :=
  match getnum4 v with
  | none => none
  | some (y, r1) =>
      match r1 with
      | '-' :: r2 =>
          match getnum2 r2 with
          | none => none
          | some (mo, r3) =>
              match r3 with
              | '-' :: r4 =>
                  match getnum2 r4 with
                  | none => none
                  | some (d, r5) =>
                      match r5 with
                      | ' ' :: r6 =>
                          match getnumFlex r6 with
                          | none => none
                          | some (h, r7) =>
                              match r7 with
                              | ':' :: r8 =>
                                  match getnum2 r8 with
                                  | none => none
                                  | some (mi, r9) =>
                                      match r9 with
                                      | ':' :: r10 =>
                                          match getnum2 r10 with
                                          | none => none
                                          | some (s, r11) =>
                                              match readOptFrac r11 with
                                              | none => none
                                              | some (ns, r12) => some (y, mo, d, h, mi, s, ns, r12)
                                      | _ => none
                              | _ => none
                      | _ => none
              | _ => none
      | _ => none

/-- `time.ParseInLocation("2006-01-02 15:04:05 MST", v, loc)`. -/
def goParseSonicMST (v : Str) (loc : GoZone) : Option GoTime :=
  match goParseSonicBody v with
  | some (y, mo, d, h, mi, s, ns, ' ' :: r) =>
      match readAbbrevZone r with
      | some (z, []) => mkDate y mo d h mi s ns z
      | _ => none
  | _ => (fun _ => none) loc

/-- `time.ParseInLocation("2006-01-02 15:04:05", v, loc)`: no zone in the
value, so the supplied location is used. -/
def goParseSonicPlain (v : Str) (loc : GoZone) : Option GoTime :=
  match goParseSonicBody v with
  | some (y, mo, d, h, mi, s, ns, []) => mkDate y mo d h mi s ns loc
  | _ => none

/-- `time.ParseInLocation("Jan 02 15:04:05 MST", v, loc)` (Cisco ASA
classic, zone-bearing variant; day is a fixed two-digit field). -/
def goParseCiscoMST (v : Str) (loc : GoZone) : Option GoTime :=
  match v with
  | a :: b :: c :: ' ' :: r =>
      match monthFromName a b c with
      | none => none
      | some mo =>
          match getnum2 r with
          | none => none
          | some (d, r2) =>
              match r2 with
              | ' ' :: r3 =>
                  match getnumFlex r3 with
                  | none => none
                  | some (h, r4) =>
                      match r4 with
                      | ':' :: r5 =>
                          match getnum2 r5 with
                          | none => none
                          | some (mi, r6) =>
                              match r6 with
                              | ':' :: r7 =>
                                  match getnum2 r7 with
                                  | none => none
                                  | some (s, r8) =>
                                      match readOptFrac r8 with
                                      | none => none
                                      | some (ns, r9) =>
                                          match r9 with
                                          | ' ' :: r10 =>
                                              match readAbbrevZone r10 with
                                              | some (z, []) => mkDate 0 mo d h mi s ns z
                                              | _ => none
                                          | _ => none
                              | _ => none
                      | _ => none
              | _ => none
  | _ => (fun _ => none) loc

/-- `time.ParseInLocation("Jan 02 15:04:05", v, loc)` (Cisco ASA classic,
zoneless variant). -/
def goParseCiscoPlain (v : Str) (loc : GoZone) : Option GoTime :=
  match v with
  | a :: b :: c :: ' ' :: r =>
      match monthFromName a b c with
      | none => none
      | some mo =>
          match getnum2 r with
          | none => none
          | some (d, r2) =>
              match r2 with
              | ' ' :: r3 =>
                  match getnumFlex r3 with
                  | none => none
                  | some (h, r4) =>
                      match r4 with
                      | ':' :: r5 =>
                          match getnum2 r5 with
                          | none => none
                          | some (mi, r6) =>
                              match r6 with
                              | ':' :: r7 =>
                                  match getnum2 r7 with
                                  | none => none
                                  | some (s, r8) =>
                                      match readOptFrac r8 with
                                      | none => none
                                      | some (ns, r9) =>
                                          if r9 = [] then mkDate 0 mo d h mi s ns loc
                                          else none
                              | _ => none
                      | _ => none
              | _ => none
  | _ => none

/-! ## Shared primitive scanners (package `internal/syslogparser`)

The file `internal/syslogparser/syslogparser.go` is not under `src/`
(only its consumers are); the primitives below are modelled from §4.1 of
the spec, with their cursor discipline reconstructed from the call sites
in the two parsers. -/

/-- Error kinds of the parser family (§7 of the spec; the dialect
sentinels are control-flow signals distinguished by `errors.Is`). -/
inductive PErr where
  | eol
  | priorityFormat
  | versionNotFound
  | yearInvalid | monthInvalid | dayInvalid
  | hourInvalid | minuteInvalid | secondInvalid
  | secFracInvalid | timeZoneInvalid | invalidTimeFormat
  | invalidAppName | invalidProcId | invalidMsgId
  | noStructuredData
  | ciscoASARFC5424
  | tsUnknown
  | unixIntInvalid
  | cisco5424ParseFail
  | sonicOSFormat | fortiOSFormat | ciscoASAFormat
  | sonicParseFail | fortiParseFail | ciscoClassicParseFail
deriving DecidableEq, Repr

/-- Outcome of a scanner: a Go runtime panic (out-of-range index or
slice), an error return, or success. -/
inductive GoRes (α : Type) where
  | fault
  | err (e : PErr)
  | ok (a : α)
deriving DecidableEq, Repr

/-- `Priority{P, F: Facility{Value: P/8}, S: Severity{Value: P%8}}`. -/
structure Priority where
  P : Nat
  F : Nat
  S : Nat
deriving DecidableEq, Repr

/-- Modelled from the spec: `syslogparser.ParsePriority` — requires `<`,
then 1–3 decimal digits, then `>`, with a value in `[0,191]`; fails
otherwise (§4.1).  Returns the priority and the advanced cursor. -/
def ParsePriority (buff : Str) (cursor : Nat) : Option (Priority × Nat) :=
  match buff.drop cursor with
  | '<' :: t =>
      let ds := t.takeWhile IsDigit
      if 1 ≤ ds.length && ds.length ≤ 3 then
        match t.drop ds.length with
        | '>' :: _ =>
            let v := valD ds
            if v ≤ 191 then some (⟨v, v / 8, v % 8⟩, cursor + ds.length + 2)
            else none
        | _ => none
      else none
  | _ => none

/-- `syslogparser.NO_VERSION`. -/
def NO_VERSION : Int := -1

/-- Modelled from the spec: `syslogparser.ParseVersion` — reads the single
byte after `<PRI>` as the version digit.  (The spec's §4.2 Cisco-ASA
variant and §8 scenario 3 require the RFC 5424 header parse to proceed
when the digits are not followed by a space — `<166>2018-…` — so the
scanner consumes exactly one digit.) -/
def ParseVersion (buff : Str) (cursor : Nat) : Option (Int × Nat) :=
  match (buff.drop cursor).head? with
  | none => none
  | some c => if IsDigit c then some ((dval c : Int), cursor + 1) else none

/-- Modelled from the spec: `syslogparser.ParseHostname` — the run of
bytes up to the next space (§4.1).  A cursor beyond the buffer end makes
the Go slice expression panic, modelled as `none` (a fault). -/
def ParseHostnameCore (buff : Str) (cursor : Nat) : Option (Str × Nat) :=
  if buff.length < cursor then none
  else
    let tok := (buff.drop cursor).takeWhile (fun c => c ≠ ' ')
    some (tok, cursor + tok.length)

/-- Modelled from the spec: `syslogparser.Parse2Digits` — exactly two
ASCII digits whose value lies in `[min,max]`, else the caller-supplied
error kind (§4.1); fewer than two remaining bytes is `ErrEOL`. -/
def Parse2Digits (buff : Str) (cursor l lo hi : Nat) (e : PErr) : GoRes (Nat × Nat) :=
  if l < cursor + 2 then .err .eol
  else
    match buff.drop cursor with
    | c1 :: c2 :: _ =>
        if IsDigit c1 && IsDigit c2 then
          let v := 10 * dval c1 + dval c2
          if lo ≤ v && v ≤ hi then .ok (v, cursor + 2) else .err e
        else .err e
    | _ => .err .eol

/-- `strconv.Atoi` at the parsers' call sites: all bytes decimal digits
(every reachable argument starts with a digit or fails, so the sign forms
are immaterial), nonempty. -/
def goAtoi (s : Str) : Option Nat :=
  if s ≠ [] && s.all IsDigit then some (valD s) else none

/-- `strconv.ParseInt(s, 10, 64)` at the parsers' call sites: digits
only, value within `int64`. -/
def goParseInt64 (s : Str) : Option Nat :=
  if s ≠ [] && s.all IsDigit && valD s < 2 ^ 63 then some (valD s) else none

/-! ## RFC 5424 parser (`internal/syslogparser/rfc5424/rfc5424.go`) -/

/-- `isUnixTimestamp`: the loop counts leading decimal digits from the
cursor and exits at `'.'`, at any other non-digit, or at the buffer end —
each exit tests `digitCount >= 10`, so the check is simply that at least
ten digits start at the cursor. -/
def isUnixTimestamp (buff : Str) (cursor : Nat) : Bool :=
  10 ≤ ((buff.drop cursor).takeWhile IsDigit).length

/-- `parseUnixTimestamp`: the integer part runs to the first `'.'` — or,
when no dot occurs anywhere after the cursor, to the very end of the
buffer — and is fed to `strconv.ParseInt`; the fractional digits after
the dot are captured (their `float64` conversion to nanoseconds stays
symbolic in `GoTime.unixFrac`). -/
def parseUnixTimestamp (buff : Str) (cursor l : Nat) : GoRes (GoTime × Nat) :=
  let s := buff.drop cursor
  let intPart := s.takeWhile (fun c => c ≠ '.')
  match s.drop intPart.length with
  | [] =>
      match goParseInt64 intPart with
      | some v => .ok (.unixFrac v [], l)
      | none => .err .unixIntInvalid
  | _ :: afterDot =>
      let frac := afterDot.takeWhile IsDigit
      match goParseInt64 intPart with
      | some v => .ok (.unixFrac v frac, cursor + intPart.length + 1 + frac.length)
      | none => .err .unixIntInvalid

/-- The 20-byte shape `\d{4}-\d{2}-\d{2}T\d{2}:\d{2}:\d{2}Z` captured by
`ciscoASATimestampCapture`. -/
def ciscoShape20 (r : Str) : Option Str :=
  match r with
  | y1 :: y2 :: y3 :: y4 :: '-' :: m1 :: m2 :: '-' :: d1 :: d2 :: 'T' ::
      h1 :: h2 :: ':' :: i1 :: i2 :: ':' :: s1 :: s2 :: 'Z' :: _ =>
      if IsDigit y1 && IsDigit y2 && IsDigit y3 && IsDigit y4 && IsDigit m1 && IsDigit m2 &&
          IsDigit d1 && IsDigit d2 && IsDigit h1 && IsDigit h2 && IsDigit i1 && IsDigit i2 &&
          IsDigit s1 && IsDigit s2 then
        some [y1, y2, y3, y4, '-', m1, m2, '-', d1, d2, 'T', h1, h2, ':', i1, i2, ':', s1, s2, 'Z']
      else none
  | _ => none

/-- The anchored regex `^<\d+>(\d{4}-\d{2}-\d{2}T\d{2}:\d{2}:\d{2}Z)` of
the RFC 5424 parser: returns the captured timestamp group. -/
def ciscoCapture5424 (buff : Str) : Option Str :=
  match buff with
  | '<' :: t =>
      let ds := t.takeWhile IsDigit
      if ds = [] then none
      else
        match t.drop ds.length with
        | '>' :: r => ciscoShape20 r
        | _ => none
  | _ => none

/-- `checkCiscoASA_RFC5424` (RFC 5424 variant, fraction-free pattern). -/
def checkCiscoASA5424 (buff : Str) : Bool := (ciscoCapture5424 buff).isSome

/-- `parseYear`: four bytes through `strconv.Atoi`; on a non-numeric
substring the Cisco-ASA sentinel is raised when the whole buffer matches
the Cisco pattern. -/
def parseYear (buff : Str) (cursor l : Nat) : GoRes (Nat × Nat) :=
  if l < cursor + 4 then .err .eol
  else
    match goAtoi ((buff.drop cursor).take 4) with
    | some y => .ok (y, cursor + 4)
    | none =>
        if checkCiscoASA5424 buff then .err .ciscoASARFC5424 else .err .yearInvalid

/-- `parseFullDate`: `DATE-FULLYEAR "-" DATE-MONTH "-" DATE-MDAY`. -/
def parseFullDate (buff : Str) (cursor l : Nat) : GoRes ((Nat × Nat × Nat) × Nat) :=
  match parseYear buff cursor l with
  | .fault => .fault
  | .err e => .err e
  | .ok (y, c1) =>
      match (buff.drop c1).head? with
      | some '-' =>
          match Parse2Digits buff (c1 + 1) l 1 12 .monthInvalid with
          | .fault => .fault
          | .err e => .err e
          | .ok (mo, c2) =>
              match (buff.drop c2).head? with
              | some '-' =>
                  match Parse2Digits buff (c2 + 1) l 1 31 .dayInvalid with
                  | .fault => .fault
                  | .err e => .err e
                  | .ok (d, c3) => .ok ((y, mo, d), c3)
              | _ => .err .tsUnknown
      | _ => .err .tsUnknown

/-- `getHourMinute`: `TIME-HOUR ":" TIME-MINUTE`. -/
def getHourMinute (buff : Str) (cursor l : Nat) : GoRes ((Nat × Nat) × Nat) :=
  match Parse2Digits buff cursor l 0 23 .hourInvalid with
  | .fault => .fault
  | .err e => .err e
  | .ok (h, c1) =>
      match (buff.drop c1).head? with
      | some ':' =>
          match Parse2Digits buff (c1 + 1) l 0 59 .minuteInvalid with
          | .fault => .fault
          | .err e => .err e
          | .ok (mi, c2) => .ok ((h, mi), c2)
      | _ => .err .invalidTimeFormat

/-- `parsePartialTime`: hour, minute, second, then an optional fraction of
at most six digits (`parseSecFrac`); a bare dot with no digit after it is
swallowed, leaving the cursor past the dot, exactly as the source's
error-discarding `return pt, nil` does. -/
def parsePartialTime (buff : Str) (cursor l : Nat) : GoRes ((Nat × Nat × Nat × Str) × Nat) :=
  match getHourMinute buff cursor l with
  | .fault => .fault
  | .err e => .err e
  | .ok ((h, mi), c1) =>
      match (buff.drop c1).head? with
      | some ':' =>
          match Parse2Digits buff (c1 + 1) l 0 59 .secondInvalid with
          | .fault => .fault
          | .err e => .err e
          | .ok (s, c2) =>
              match (buff.drop c2).head? with
              | some '.' =>
                  let c3 := c2 + 1
                  let fd := ((buff.drop c3).take 6).takeWhile IsDigit
                  if fd = [] then .ok ((h, mi, s, []), c3)
                  else .ok ((h, mi, s, fd), c3 + fd.length)
              | _ => .ok ((h, mi, s, []), c2)
      | _ => .err .invalidTimeFormat

/-- `toNSec` on the captured fractional digits.  `parseSecFrac` yields at
most six digits, for which Go's `float64` round trip
(`ParseFloat("0."+frac) * 1e9`, formatted back to nine decimal places) is
exactly this decimal scaling. -/
def toNSec (fd : Str) : Nat := valD fd * 10 ^ (9 - fd.length)

/-- `parseTimeOffset` / `parseNumericalTimeOffset`: `'Z'` — or the very
end of the buffer — means UTC (the cursor is advanced past the end in the
latter case, exactly as the source's unconditional `*cursor++` does);
otherwise a sign and `HH:MM`, where Go normalises a zero offset to UTC. -/
def parseTimeOffset (buff : Str) (cursor l : Nat) : GoRes (GoZone × Nat) :=
  if l ≤ cursor then .ok (.utc, cursor + 1)
  else
    match (buff.drop cursor).head? with
    | some 'Z' => .ok (.utc, cursor + 1)
    | some sign =>
        if sign = '+' || sign = '-' then
          match getHourMinute buff (cursor + 1) l with
          | .fault => .fault
          | .err e => .err e
          | .ok ((oh, om), c2) =>
              if oh = 0 && om = 0 then .ok (.utc, c2)
              else .ok (.fixedOffset (sign = '-') oh om, c2)
        else .err .timeZoneInvalid
    | none => .fault

/-- `parseFullTime`: `PARTIAL-TIME TIME-OFFSET`. -/
def parseFullTime (buff : Str) (cursor l : Nat) :
    GoRes ((Nat × Nat × Nat × Str) × GoZone × Nat) :=
  match parsePartialTime buff cursor l with
  | .fault => .fault
  | .err e => .err e
  | .ok (pt, c1) =>
      match parseTimeOffset buff c1 l with
      | .fault => .fault
      | .err e => .err e
      | .ok (z, c2) => .ok (pt, z, c2)

/-- Outcome of the RFC 5424 timestamp sub-parser: the Cisco-ASA sentinel
carries the captured timestamp; errors carry the receiver's
`isUnixTimestamp` flag as set so far. -/
inductive TsRes5424 where
  | fault
  | cisco (ts : GoTime)
  | err (e : PErr) (unixFlag : Bool)
  | ok (ts : GoTime) (cursor : Nat) (unixFlag : Bool)
deriving DecidableEq, Repr

/-- `Parser.parseTimestamp` (RFC 5424): NILVALUE, then the Unix-epoch
form, then the full date/time grammar with the Cisco-ASA rescue inside
the year parser's failure path. -/
def parseTimestamp5424 (buff : Str) (cursor l : Nat) : TsRes5424 :=
  if l ≤ cursor then .err .invalidTimeFormat false
  else
    match (buff.drop cursor).head? with
    | none => .fault
    | some c =>
        if c = '-' then .ok .nowRaw (cursor + 1) false
        else if isUnixTimestamp buff cursor then
          match parseUnixTimestamp buff cursor l with
          | .fault => .fault
          | .err e => .err e true
          | .ok (t, c1) => .ok t c1 true
        else
          match parseFullDate buff cursor l with
          | .fault => .fault
          | .err .ciscoASARFC5424 =>
              match ciscoCapture5424 buff with
              | some cap =>
                  match goParseRFC3339 cap with
                  | some t => .cisco t
                  | none => .err .cisco5424ParseFail false
              | none =>
                  -- unreachable: the sentinel is raised only when this
                  -- very capture succeeds
                  .err .cisco5424ParseFail false
          | .err e => .err e false
          | .ok ((y, mo, d), c1) =>
              match (buff.drop c1).head? with
              | some 'T' =>
                  match parseFullTime buff (c1 + 1) l with
                  | .fault => .fault
                  | .err _ => .err .tsUnknown false
                  | .ok ((h, mi, s, fd), z, c2) =>
                      .ok (.date y mo d h mi s (toNSec fd) z) c2 false
              | _ => .err .invalidTimeFormat false

/-- Outcome of `parseUpToLen`: the token before the space, or failure
with the cursor where the scan stopped (clamped to `cursor + maxLen`). -/
inductive UpToLenRes where
  | found (tok : Str) (cursor : Nat)
  | notFound (cursor : Nat)
deriving DecidableEq, Repr

/-- Modelled from the spec (§4.1, "up-to-length printable"), cursor
discipline reconstructed from the RFC 5424 call sites: scan at most
`maxLen + 1` bytes for a space; without one, fail with the caller's error
kind, the cursor not moving past `cursor + maxLen`. -/
def parseUpToLen (buff : Str) (cursor l maxLen : Nat) : UpToLenRes :=
  let w := (buff.drop cursor).take (maxLen + 1)
  let tok := w.takeWhile (fun c => c ≠ ' ')
  if tok.length < w.length then .found tok (cursor + tok.length)
  else .notFound (min (cursor + maxLen) (max cursor l))

/-- Position of the first `']'` whose successor is the buffer end or a
space (the structured-data terminator scan). -/
def sdScan : Str → Option Nat
  | [] => none
  | ']' :: rest =>
      if rest = [] || rest.head? = some ' ' then some 0
      else (sdScan rest).map (· + 1)
  | _ :: rest => (sdScan rest).map (· + 1)

/-- `parseStructuredData`: NILVALUE (or end of buffer) yields `"-"`;
otherwise a bracket run up to a `']'` followed by end or space, brackets
included in the captured value. -/
def parseStructuredData (buff : Str) (cursor l : Nat) : GoRes (Str × Nat) :=
  if l ≤ cursor then .ok (['-'], cursor)
  else
    match (buff.drop cursor).head? with
    | some '-' => .ok (['-'], cursor + 1)
    | some '[' =>
        match sdScan (buff.drop cursor) with
        | some k => .ok ((buff.drop cursor).take (k + 1), cursor + k + 1)
        | none => .err .noStructuredData
    | _ => .err .noStructuredData

/-- The RFC 5424 header record (Go zero values for unset fields; the zero
`time.Time` is 0001-01-01T00:00:00Z). -/
structure Header5424 where
  priority : Priority := ⟨0, 0, 0⟩
  version : Int := 0
  timestamp : GoTime := .date 1 1 1 0 0 0 0 .utc
  hostname : Str := []
  appName : Str := []
  procId : Str := []
  msgId : Str := []
deriving DecidableEq, Repr

/-- Outcome of `Parser.parseHeader` (RFC 5424). -/
inductive HdrRes where
  | fault
  | cisco (hdr : Header5424)
  | err (e : PErr) (unixFlag : Bool)
  | ok (hdr : Header5424) (cursor : Nat) (unixFlag : Bool)
deriving DecidableEq, Repr

/-- `Parser.parseHeader` (RFC 5424): PRI, VERSION, TIMESTAMP, HOSTNAME,
APP-NAME, then the tolerant PROC-ID and MSG-ID — their failures return
the partial header with a nil error, ending the header at the failure
cursor. -/
def parseHeader5424 (buff : Str) (l : Nat) : HdrRes :=
  match ParsePriority buff 0 with
  | none => .err .priorityFormat false
  | some (pri, c1) =>
      match ParseVersion buff c1 with
      | none => .err .versionNotFound false
      | some (ver, c2) =>
          match parseTimestamp5424 buff (c2 + 1) l with
          | .fault => .fault
          | .cisco t => .cisco {priority := pri, version := ver, timestamp := t}
          | .err e flag => .err e flag
          | .ok t c4 flag =>
              match ParseHostnameCore buff (c4 + 1) with
              | none => .fault
              | some (host, c6) =>
                  match parseUpToLen buff (c6 + 1) l 48 with
                  | .notFound _ => .err .invalidAppName flag
                  | .found app c8 =>
                      let hdr0 : Header5424 :=
                        {priority := pri, version := ver, timestamp := t,
                         hostname := host, appName := app}
                      match parseUpToLen buff (c8 + 1) l 128 with
                      | .notFound c10 => .ok hdr0 c10 flag
                      | .found procV c10 =>
                          match parseUpToLen buff (c10 + 1) l 32 with
                          | .notFound c12 => .ok {hdr0 with procId := procV} c12 flag
                          | .found msgV c12 =>
                              .ok {hdr0 with procId := procV, msgId := msgV} (c12 + 1) flag

/-- The RFC 5424 parser state relevant after `Parse` (buffer, cursor and
length aside): header, structured data, message, Meraki flag. -/
structure State5424 where
  header : Header5424
  structuredData : Str
  message : Str
  isUnixTimestamp : Bool
deriving DecidableEq, Repr

/-- Outcome of `Parser.Parse`: a runtime fault, or the final parser state
together with the returned error. -/
inductive POut5424 where
  | fault
  | done (st : State5424) (e : Option PErr)
deriving DecidableEq, Repr

/-- `Parser.Parse` (RFC 5424): the message is the whole original buffer
and the default timestamp `time.Now().Round(time.Second)` is installed
first; the Cisco-ASA sentinel yields success with `version = 1` and
`structured_data = "-"`; a set Meraki flag skips structured data; other
header errors fail the parse with the header left at its default. -/
def parse5424 (buff : Str) : POut5424 :=
  let l := buff.length
  let hdr0 : Header5424 := {timestamp := .nowRounded}
  match parseHeader5424 buff l with
  | .fault => .fault
  | .cisco hdr =>
      .done {header := {hdr with version := 1}, structuredData := ['-'],
             message := buff, isUnixTimestamp := false} none
  | .err e flag =>
      .done {header := hdr0, structuredData := [], message := buff,
             isUnixTimestamp := flag} (some e)
  | .ok hdr c flag =>
      if flag then
        .done {header := hdr, structuredData := ['-'], message := buff,
               isUnixTimestamp := true} none
      else
        match parseStructuredData buff c l with
        | .fault => .fault
        | .err e =>
            .done {header := hdr, structuredData := [], message := buff,
                   isUnixTimestamp := false} (some e)
        | .ok (sd, _) =>
            .done {header := hdr, structuredData := sd, message := buff,
                   isUnixTimestamp := false} none

/-- The `LogParts` map as `Parser.Dump` (RFC 5424) fills it. -/
structure LogParts5424 where
  priority : Nat
  facility : Nat
  severity : Nat
  version : Int
  timestamp : GoTime
  hostname : Str
  appName : Str
  procId : Str
  msgId : Str
  structuredData : Str
  message : Str
deriving DecidableEq, Repr

/-- `Parser.Dump` (RFC 5424). -/
def Dump5424 (st : State5424) : LogParts5424 :=
  { priority := st.header.priority.P
    facility := st.header.priority.F
    severity := st.header.priority.S
    version := st.header.version
    timestamp := st.header.timestamp
    hostname := st.header.hostname
    appName := st.header.appName
    procId := st.header.procId
    msgId := st.header.msgId
    structuredData := st.structuredData
    message := st.message }

/-! ## RFC 3164 parser (`rfc3164.go`, the dialect-dispatching copy) -/

/-- `strings.Contains`. -/
def containsStr (hay needle : Str) : Bool :=
  if needle.isPrefixOf hay then true
  else
    match hay with
    | [] => false
    | _ :: t => containsStr t needle

/-- The unanchored regex `<\d+>:` matching at the head of the given
suffix. -/
def ciscoClassicAt (s : Str) : Bool :=
  match s with
  | '<' :: t =>
      let ds := t.takeWhile IsDigit
      ds ≠ [] &&
        (match t.drop ds.length with
         | '>' :: ':' :: _ => true
         | _ => false)
  | _ => false

/-- `ciscoASARegexp.MatchString`: the pattern `<\d+>:` anywhere in the
buffer. -/
def hasCiscoClassic : Str → Bool
  | [] => false
  | c :: t => ciscoClassicAt (c :: t) || hasCiscoClassic t

/-- The 19-byte date-time shape with an optional fraction and a final
`Z`, as captured by `^<\d+>(\d{4}-\d{2}-\d{2}T\d{2}:\d{2}:\d{2}(?:\.\d+)?Z)`. -/
def ciscoShapeFrac (r : Str) : Option Str :=
  match r with
  | y1 :: y2 :: y3 :: y4 :: '-' :: m1 :: m2 :: '-' :: d1 :: d2 :: 'T' ::
      h1 :: h2 :: ':' :: i1 :: i2 :: ':' :: s1 :: s2 :: rest =>
      if IsDigit y1 && IsDigit y2 && IsDigit y3 && IsDigit y4 && IsDigit m1 && IsDigit m2 &&
          IsDigit d1 && IsDigit d2 && IsDigit h1 && IsDigit h2 && IsDigit i1 && IsDigit i2 &&
          IsDigit s1 && IsDigit s2 then
        let base := [y1, y2, y3, y4, '-', m1, m2, '-', d1, d2, 'T', h1, h2, ':', i1, i2, ':', s1, s2]
        match rest with
        | 'Z' :: _ => some (base ++ ['Z'])
        | '.' :: r2 =>
            let fd := r2.takeWhile IsDigit
            if fd ≠ [] then
              match r2.drop fd.length with
              | 'Z' :: _ => some (base ++ '.' :: (fd ++ ['Z']))
              | _ => none
            else none
        | _ => none
      else none
  | _ => none

/-- The RFC 3164 parser's anchored Cisco-ASA RFC 5424-style capture
(fraction allowed, unlike the RFC 5424 parser's copy). -/
def cisco3164Capture (buff : Str) : Option Str :=
  match buff with
  | '<' :: t =>
      let ds := t.takeWhile IsDigit
      if ds = [] then none
      else
        match t.drop ds.length with
        | '>' :: r => ciscoShapeFrac r
        | _ => none
  | _ => none

/-- `time="([^"]+)"` tried at the head of a suffix: at least one
non-quote character up to a closing quote. -/
def sonicTimeAt (s : Str) : Option Str :=
  if ("time=\"".data).isPrefixOf s then
    let r := s.drop 6
    let cap := r.takeWhile (fun c => c ≠ '"')
    if cap ≠ [] && r.drop cap.length ≠ [] then some cap else none
  else none

/-- Leftmost match of `time="([^"]+)"` over the whole buffer. -/
def sonicTimeCapture : Str → Option Str
  | [] => none
  | c :: t =>
      match sonicTimeAt (c :: t) with
      | some cap => some cap
      | none => sonicTimeCapture t

/-- `fw=([0-9.]+)` tried at the head of a suffix. -/
def sonicFwAt (s : Str) : Option Str :=
  if ("fw=".data).isPrefixOf s then
    let cap := (s.drop 3).takeWhile (fun c => IsDigit c || c = '.')
    if cap ≠ [] then some cap else none
  else none

/-- Leftmost match of `fw=([0-9.]+)`. -/
def sonicFwCapture : Str → Option Str
  | [] => none
  | c :: t =>
      match sonicFwAt (c :: t) with
      | some cap => some cap
      | none => sonicFwCapture t

/-- `eventtime=(\d+)` tried at the head of a suffix. -/
def fortiAt (s : Str) : Option Str :=
  if ("eventtime=".data).isPrefixOf s then
    let cap := (s.drop 10).takeWhile IsDigit
    if cap ≠ [] then some cap else none
  else none

/-- Leftmost match of `eventtime=(\d+)`. -/
def fortiCapture : Str → Option Str
  | [] => none
  | c :: t =>
      match fortiAt (c :: t) with
      | some cap => some cap
      | none => fortiCapture t

/-- The remainder after the anchored prefix `^<\d+>:`, when it matches. -/
def ciscoClassicPrefix (buff : Str) : Option Str :=
  match buff with
  | '<' :: t =>
      let ds := t.takeWhile IsDigit
      if ds = [] then none
      else
        match t.drop ds.length with
        | '>' :: ':' :: r => some r
        | _ => none
  | _ => none

/-- `\w` of Go's regexp: `[0-9A-Za-z_]`. -/
def isWordChar (c : Char) : Bool := c.isAlpha || IsDigit c || c = '_'

/-- The optional timestamp group
`(\w{3} \d{2} \d{2}:\d{2}:\d{2}(?: [A-Z]+)?) ` of the Cisco-ASA classic
header regex, tried after `<\d+>:` — the greedy zone sub-group is taken
when an upper-case run followed by a space is present, otherwise the
group closes at the first space. -/
def ciscoGroupAt (r : Str) : Option Str :=
  match r with
  | w1 :: w2 :: w3 :: ' ' :: d1 :: d2 :: ' ' :: h1 :: h2 :: ':' :: i1 :: i2 :: ':' ::
      s1 :: s2 :: rest =>
      if isWordChar w1 && isWordChar w2 && isWordChar w3 && IsDigit d1 && IsDigit d2 &&
          IsDigit h1 && IsDigit h2 && IsDigit i1 && IsDigit i2 && IsDigit s1 && IsDigit s2 then
        let base := [w1, w2, w3, ' ', d1, d2, ' ', h1, h2, ':', i1, i2, ':', s1, s2]
        match rest with
        | ' ' :: r2 =>
            let run := r2.takeWhile (fun c => 'A' ≤ c && c ≤ 'Z')
            if run ≠ [] then
              match r2.drop run.length with
              | ' ' :: _ => some (base ++ ' ' :: run)
              | _ => some base
            else some base
        | _ => none
      else none
  | _ => none

/-- The RFC 3164 header: timestamp and hostname (Go zero values). -/
structure Header3164 where
  timestamp : GoTime := .date 1 1 1 0 0 0 0 .utc
  hostname : Str := []
deriving DecidableEq, Repr

/-- `Parser.parseCiscoASAHeader`: when the anchored prefix or its
timestamp group is absent, the current UTC instant is used; otherwise the
layouts `"Jan 02 15:04:05 MST"` then `"Jan 02 15:04:05"` are tried. -/
def parseCiscoASAHeaderClassic (buff : Str) (loc : GoZone) : GoRes Header3164 :=
  let tsStr : Option Str :=
    match ciscoClassicPrefix buff with
    | some r => ciscoGroupAt r
    | none => none
  match tsStr with
  | none => .ok {timestamp := .nowUTC, hostname := []}
  | some v =>
      match goParseCiscoMST v loc with
      | some t => .ok {timestamp := fixTimestampIfNeeded t, hostname := []}
      | none =>
          match goParseCiscoPlain v loc with
          | some t => .ok {timestamp := fixTimestampIfNeeded t, hostname := []}
          | none => .err .ciscoClassicParseFail

/-- `Parser.parseSonicWallHeader`: capture `time="([^"]+)"` and
`fw=([0-9.]+)`; try the layouts `"2006-01-02 15:04:05 MST"` then
`"2006-01-02 15:04:05"`; the hostname is the `fw=` capture (empty when
absent). -/
def parseSonicWallHeader (buff : Str) (loc : GoZone) : GoRes Header3164 :=
  let tsStr := (sonicTimeCapture buff).getD []
  let host := (sonicFwCapture buff).getD []
  match goParseSonicMST tsStr loc with
  | some t => .ok {timestamp := fixTimestampIfNeeded t, hostname := host}
  | none =>
      match goParseSonicPlain tsStr loc with
      | some t => .ok {timestamp := fixTimestampIfNeeded t, hostname := host}
      | none => .err .sonicParseFail

/-- `Parser.parseFortiOSHeader`: the `eventtime=(\d+)` capture is
nanoseconds since the epoch; `time.Unix(n/1e9, n%1e9).UTC()`. -/
def parseFortiOSHeader (buff : Str) : GoRes Header3164 :=
  match goParseInt64 ((fortiCapture buff).getD []) with
  | none => .err .fortiParseFail
  | some n => .ok {timestamp := fixTimestampIfNeeded (.unixNsec n), hostname := []}

/-- `Parser.parseCiscoASA_RFC5424`: parse the captured ISO timestamp
(`time.RFC3339Nano` when it carries a dot, `time.RFC3339` otherwise —
both modelled by `goParseRFC3339`, whose optional-fraction rule covers
the two layouts). -/
def parseCiscoASA_RFC5424hdr (buff : Str) : GoRes Header3164 :=
  match cisco3164Capture buff with
  | some v =>
      match goParseRFC3339 v with
      | some t => .ok {timestamp := fixTimestampIfNeeded t, hostname := []}
      | none => .err .cisco5424ParseFail
  | none => .err .cisco5424ParseFail

/-- The layout loop at the head of `Parser.parseTimestamp` (RFC 3164):
the first byte decides the order (`time.Stamp` first unless the byte is
strictly between `'0'` and `'9'`), each layout is tried on the
layout-length slice when it fits.  Reading the first byte with the cursor
at or past the buffer end is a Go panic (`fault`). -/
def tryTimestampFormats (buff : Str) (cursor l : Nat) (loc : GoZone) :
    GoRes (Option (GoTime × Nat)) :=
  match (buff.drop cursor).head? with
  | none => .fault
  | some c =>
      let tryStamp : Option (GoTime × Nat) :=
        if cursor + 15 ≤ l then (goParseStamp ((buff.drop cursor).take 15) loc).map (fun t => (t, 15))
        else none
      let tryRFC : Option (GoTime × Nat) :=
        if cursor + 25 ≤ l then (goParseRFC3339 ((buff.drop cursor).take 25)).map (fun t => (t, 25))
        else none
      if '0' < c && c < '9' then .ok (tryRFC <|> tryStamp) else .ok (tryStamp <|> tryRFC)

/-- Outcome of `Parser.parseTimestamp` (RFC 3164): a parsed canonical
timestamp, or one of the dialect sentinels, or the unknown-format error.
The cursor mutations of the failing branch are unobservable: every caller
either dispatches a dialect on the whole buffer or resets the cursor. -/
inductive TsRes3164 where
  | fault
  | ok (ts : GoTime) (cursor : Nat)
  | errSonic
  | errForti
  | errCiscoClassic
  | errCisco5424
  | errUnknown
deriving DecidableEq, Repr

/-- `Parser.parseTimestamp` (RFC 3164): try the two canonical layouts,
then sniff the vendor sentinels in source order (Cisco-ASA classic,
SonicWall `time="`, FortiOS `eventtime=`, Cisco-ASA RFC 5424-style). -/
def parseTimestamp3164 (buff : Str) (cursor l : Nat) (loc : GoZone) : TsRes3164 :=
  match tryTimestampFormats buff cursor l loc with
  | .fault => .fault
  | .err _ => .fault
  | .ok (some (ts, len)) =>
      let c1 := cursor + len
      let c2 := if (buff.drop c1).head? = some ' ' then c1 + 1 else c1
      .ok (fixTimestampIfNeeded ts) c2
  | .ok none =>
      if hasCiscoClassic buff then .errCiscoClassic
      else if containsStr buff ("time=\"".data) then .errSonic
      else if containsStr buff ("eventtime=".data) then .errForti
      else if (cisco3164Capture buff).isSome then .errCisco5424
      else .errUnknown

/-- `Parser.parseHostname` (RFC 3164): the shared hostname scanner, plus
the GNU `syslog()` quirk — a captured run ending in `':'` is not a
hostname; the server's own hostname is substituted and the cursor steps
back one byte. -/
def parseHostname3164 (buff : Str) (cursor : Nat) (osHostname : Str) : GoRes (Str × Nat) :=
  match ParseHostnameCore buff cursor with
  | none => .fault
  | some (hostname, c1) =>
      if hostname ≠ [] && hostname.getLast? = some ':' then .ok (osHostname, cursor - 1)
      else .ok (hostname, c1)

/-- Bytes before the last `'['` of the prefix, if any (the tag is
re-captured at every open bracket before the tag terminator). -/
def lastBracketPrefix (pre : Str) : Str :=
  match pre.reverse.dropWhile (fun c => c ≠ '[') with
  | [] => pre
  | _ :: r => r.reverse

/-- `Parser.parseTag`: scan to the first `':'` or `' '`; a `'['` seen
before that point ends the tag (the last such bracket wins); reaching the
buffer end resets the cursor and yields an empty tag; one trailing space
is skipped.  Entering with the cursor beyond the buffer end indexes out
of range (fault). -/
def parseTag (buff : Str) (cursor : Nat) : GoRes (Str × Nat) :=
  if buff.length < cursor then .fault
  else
    let s := buff.drop cursor
    match s.findIdx? (fun c => c = ':' || c = ' ') with
    | none => .ok ([], cursor)
    | some k =>
        let tag := lastBracketPrefix (s.take k)
        let c1 := cursor + k + 1
        let c2 := if (buff.drop c1).head? = some ' ' then c1 + 1 else c1
        .ok (tag, c2)

/-- `Parser.parsemessage`: the content is the whole buffer; unless tag
parsing is skipped, the tag is scanned first; `movePastContent` always
reports `ErrEOL`, which the caller treats as success. -/
def parsemessage (buff : Str) (cursor : Nat) (skipTag : Bool) : GoRes (Str × Str) :=
  if skipTag then .ok ([], buff)
  else
    match parseTag buff cursor with
    | .fault => .fault
    | .err e => .err e
    | .ok (tag, _) => .ok (tag, buff)

/-- The RFC 3164 parser state relevant after `Parse`. -/
structure State3164 where
  priority : Priority
  version : Int
  header : Header3164
  tag : Str
  content : Str
deriving DecidableEq, Repr

/-- Outcome of `Parser.Parse` (RFC 3164). -/
inductive POut3164 where
  | fault
  | done (st : State3164) (e : Option PErr)
deriving DecidableEq, Repr

/-- `Parser.Parse` (RFC 3164, the dialect-dispatching copy): priority
failure falls back to `P=13` with the whole buffer as content and
`timestamp = now` and succeeds; a parsed canonical header is followed by
tag and content; a dialect sentinel dispatches the matching vendor header
parser and keeps the whole buffer as content with an empty tag; any other
header error (including the unknown-timestamp error) is returned with the
parser fields still at their prologue defaults. -/
def parse3164 (buff osh : Str) (loc : GoZone) : POut3164 :=
  let l := buff.length
  let failSt : State3164 :=
    {priority := ⟨0, 0, 0⟩, version := 0, header := {timestamp := .nowUTC, hostname := []},
     tag := [], content := buff}
  match ParsePriority buff 0 with
  | none =>
      .done {priority := ⟨13, 1, 5⟩, version := 0,
             header := {timestamp := .nowUTC, hostname := []},
             tag := [], content := buff} none
  | some (pri, c1) =>
      match parseTimestamp3164 buff c1 l loc with
      | .fault => .fault
      | .ok ts c2 =>
          match parseHostname3164 buff c2 osh with
          | .fault => .fault
          | .err _ => .fault
          | .ok (host, c3) =>
              match parsemessage buff (c3 + 1) false with
              | .fault => .fault
              | .err e => .done failSt (some e)
              | .ok (tag, content) =>
                  .done {priority := pri, version := NO_VERSION,
                         header := {timestamp := ts, hostname := host},
                         tag := tag, content := content} none
      | .errSonic =>
          match parseSonicWallHeader buff loc with
          | .fault => .fault
          | .err e => .done failSt (some e)
          | .ok hdr =>
              .done {priority := pri, version := NO_VERSION, header := hdr,
                     tag := [], content := buff} none
      | .errForti =>
          match parseFortiOSHeader buff with
          | .fault => .fault
          | .err e => .done failSt (some e)
          | .ok hdr =>
              .done {priority := pri, version := NO_VERSION, header := hdr,
                     tag := [], content := buff} none
      | .errCiscoClassic =>
          match parseCiscoASAHeaderClassic buff loc with
          | .fault => .fault
          | .err e => .done failSt (some e)
          | .ok hdr =>
              .done {priority := pri, version := NO_VERSION, header := hdr,
                     tag := [], content := buff} none
      | .errCisco5424 =>
          match parseCiscoASA_RFC5424hdr buff with
          | .fault => .fault
          | .err e => .done failSt (some e)
          | .ok hdr =>
              .done {priority := pri, version := NO_VERSION, header := hdr,
                     tag := [], content := buff} none
      | .errUnknown => .done failSt (some .tsUnknown)

/-- The `LogParts` map as `Parser.Dump` (RFC 3164) fills it. -/
structure LogParts3164 where
  timestamp : GoTime
  hostname : Str
  tag : Str
  content : Str
  priority : Nat
  facility : Nat
  severity : Nat
deriving DecidableEq, Repr

/-- `Parser.Dump` (RFC 3164). -/
def Dump3164 (st : State3164) : LogParts3164 :=
  { timestamp := st.header.timestamp
    hostname := st.header.hostname
    tag := st.tag
    content := st.content
    priority := st.priority.P
    facility := st.priority.F
    severity := st.priority.S }

/-! ## Receiver record assembly (`server.go`, `Server.parser`) -/

/-- The `interface{}` value stored under `"timestamp"`: a `time.Time` or
the empty string (the comparison `logParts["timestamp"] == ""` in the
source only ever matches the latter). -/
inductive TsVal where
  | tv (t : GoTime)
  | emptyStr
deriving DecidableEq, Repr

/-- The slice of the `LogParts` map the assembly step reads and writes;
`none` models an absent key. -/
structure LogPartsMap where
  timestamp : Option TsVal
  hostname : Option Str
  client : Option Str := none
  tlsPeer : Option Str := none
deriving DecidableEq, Repr

/-- `strings.Index`: index of the first occurrence, `-1` when absent. -/
def goStringsIndex (s : Str) (c : Char) : Int :=
  match s.findIdx? (fun x => x = c) with
  | some i => (i : Int)
  | none => -1

/-- The record-assembly tail of `Server.parser`: install `time.Now().UTC()`
only when the `"timestamp"` key is absent (the `timestamp == ""` branch
assigns the local variable `timestamp`, not the map entry); set
`"client"`; for the RFC 3164 / Automatic formats replace an empty
hostname by the client truncated at a `':'` found at index 2 or later
(`i > 1`), else the whole client; set `"tls_peer"`. -/
def serverAssemble (lp : LogPartsMap) (fmt3164orAuto : Bool) (client tlsPeer : Str) :
    LogPartsMap :=
  let lp1 :=
    match lp.timestamp with
    | none => {lp with timestamp := some (.tv .nowUTC)}
    | some _ => lp
  let lp2 := {lp1 with client := some client}
  let lp3 :=
    if lp2.hostname = some [] && fmt3164orAuto then
      {lp2 with hostname := some (
        if goStringsIndex client ':' > 1 then client.take (goStringsIndex client ':').toNat
        else client)}
    else lp2
  {lp3 with tlsPeer := some tlsPeer}

/-! ## Claims -/

/-- C3. Spec-modelled priority scanner: whenever priority parsing fails
(no leading `<`, malformed digits, or value outside `[0,191]`), the
RFC 3164 `Parse` returns success with `P=13`, facility 1, severity 5, the
entire buffer as content, empty hostname and tag, and the timestamp set
to the current instant at parse time. -/
theorem rfc3164_priority_failure_defaults (buff osh : Str) (loc : GoZone)
    (h : ParsePriority buff 0 = none) :
    parse3164 buff osh loc =
      .done {priority := ⟨13, 1, 5⟩, version := 0,
             header := {timestamp := .nowUTC, hostname := []},
             tag := [], content := buff} none ∧
    Dump3164 {priority := ⟨13, 1, 5⟩, version := 0,
              header := {timestamp := .nowUTC, hostname := []},
              tag := [], content := buff} =
      { timestamp := .nowUTC, hostname := [], tag := [], content := buff,
        priority := 13, facility := 1, severity := 5 } := by
  constructor
  · unfold parse3164
    rw [h]
  · rfl

/-- Witness for C3 at the test input of `TestParser_NoPriority`. -/
theorem rfc3164_priority_failure_defaults_witness :
    parse3164 ("Oct 11 22:14:15 Testing no priority".data) [] .utc =
      .done {priority := ⟨13, 1, 5⟩, version := 0,
             header := {timestamp := .nowUTC, hostname := []},
             tag := [], content := "Oct 11 22:14:15 Testing no priority".data} none :=
  (rfc3164_priority_failure_defaults "Oct 11 22:14:15 Testing no priority".data [] .utc
    (by decide)).1

/-- C7. For every input on which the RFC 5424 `Parse` terminates —
successfully or with an error — the `message` field `Dump` returns is the
whole original buffer, not the tail after the structured data. -/
theorem rfc5424_message_is_whole_buffer (buff : Str) (st : State5424) (e : Option PErr)
    (h : parse5424 buff = .done st e) : (Dump5424 st).message = buff := by
  unfold parse5424 at h
  simp only [] at h
  split at h
  · exact absurd h (by simp)
  · cases h
    rfl
  · cases h
    rfl
  · split at h
    · cases h
      rfl
    · split at h
      · exact absurd h (by simp)
      · cases h
        rfl
      · cases h
        rfl

/-- Witness for C7 at an input whose structured-data tail differs from
the whole buffer (spec §8 scenario 1 shape). -/
theorem rfc5424_message_is_whole_buffer_witness :
    (∃ st e, parse5424 ("<34>1 - host app proc msg [sd] tail".data) = .done st e) ∧
    (∀ st e, parse5424 ("<34>1 - host app proc msg [sd] tail".data) = .done st e →
      (Dump5424 st).message = "<34>1 - host app proc msg [sd] tail".data) := by
  constructor
  · exact ⟨_, _, rfl⟩
  · intro st e h
    exact rfc5424_message_is_whole_buffer _ st e h

/-- C8 counterexample. A client address whose first `':'` sits at index 1
is not truncated: the source guards the truncation with `i > 1`, so the
hostname becomes the whole client string `"a:5"`, not `"a"` as the claim
requires. -/
theorem server_hostname_fallback_counterexample :
    (serverAssemble {timestamp := some (.tv .nowUTC), hostname := some []}
        true ("a:5".data) []).hostname = some ("a:5".data) ∧
    goStringsIndex ("a:5".data) ':' = 1 ∧
    some ("a:5".data) ≠ some ("a".data) := by
  decide

/-- C8 (amended). Under the RFC 3164 / Automatic formats, an empty parsed
hostname is replaced by the client truncated at its first `':'` when that
colon sits at index 2 or later; otherwise (no colon, or a colon at index
0 or 1) by the whole client string. -/
theorem server_hostname_fallback (lp : LogPartsMap) (client tlsPeer : Str)
    (h : lp.hostname = some []) :
    (serverAssemble lp true client tlsPeer).hostname =
      some (match client.findIdx? (fun c => c = ':') with
            | some i => if 2 ≤ i then client.take i else client
            | none => client) := by
  unfold serverAssemble goStringsIndex
  cases hts : lp.timestamp <;>
    simp only [hts, h] <;>
    cases hidx : client.findIdx? (fun c => c = ':') <;>
      simp only [hidx] <;>
      try simp
  all_goals
    split <;> split <;> first | rfl | (exfalso; omega)

/-- Witness for C8: a typical `ip:port` client with an empty parsed
hostname is truncated at the colon. -/
theorem server_hostname_fallback_witness :
    (serverAssemble {timestamp := some (.tv .nowUTC), hostname := some []}
        true ("10.0.0.7:514".data) []).hostname = some ("10.0.0.7".data) := by
  have h := server_hostname_fallback {timestamp := some (.tv .nowUTC), hostname := some []}
    ("10.0.0.7:514".data) [] (by decide)
  rw [h]
  decide

/-- C9. The empty-timestamp substitution is a dead store: when the parser
left `""` under `"timestamp"`, `time.Now().UTC()` is assigned to the
local variable only, and the record handed to the handler still carries
the empty string — while an absent key does get the current UTC instant. -/
theorem server_empty_timestamp_not_replaced :
    (serverAssemble {timestamp := some .emptyStr, hostname := some ("h".data)}
        false ("c".data) []).timestamp = some .emptyStr ∧
    TsVal.emptyStr ≠ .tv .nowUTC ∧
    (serverAssemble {timestamp := none, hostname := some ("h".data)}
        false ("c".data) []).timestamp = some (.tv .nowUTC) := by
  decide

/-- C6 counterexample. A buffer that contains both the Cisco-ASA classic
pattern `<digits>:` and the SonicWall sentinel `time="` — with no
canonical timestamp layout matching — is dispatched to the Cisco-ASA
classic dialect, which is sniffed first: the hostname stays empty instead
of the `fw=` capture `"10.0.0.1"`, and the timestamp is the current UTC
instant instead of the `time="…"` capture. -/
theorem rfc3164_sonicwall_dispatch_counterexample :
    tryTimestampFormats ("<34>:x time=\"2016-08-19 18:05:44\" fw=10.0.0.1".data) 4
        ("<34>:x time=\"2016-08-19 18:05:44\" fw=10.0.0.1".data).length .utc = .ok none ∧
    containsStr ("<34>:x time=\"2016-08-19 18:05:44\" fw=10.0.0.1".data) ("time=\"".data) = true ∧
    sonicFwCapture ("<34>:x time=\"2016-08-19 18:05:44\" fw=10.0.0.1".data) =
      some ("10.0.0.1".data) ∧
    parse3164 ("<34>:x time=\"2016-08-19 18:05:44\" fw=10.0.0.1".data) [] .utc =
      .done {priority := ⟨34, 4, 2⟩, version := NO_VERSION,
             header := {timestamp := .nowUTC, hostname := []},
             tag := [], content := "<34>:x time=\"2016-08-19 18:05:44\" fw=10.0.0.1".data} none ∧
    ([] : Str) ≠ "10.0.0.1".data := by
  constructor
  · decide
  refine ⟨by decide, by decide, by decide, by decide⟩

/-- C6 (amended). When the RFC 3164 parser dispatches to the SonicWall
dialect — priority parsed, neither canonical timestamp layout matching,
the buffer free of the Cisco-ASA classic pattern `<digits>:` (sniffed
first), and containing `time="` — the header timestamp is parsed from the
`time="…"` capture by the layout `"2006-01-02 15:04:05 MST"` and then
`"2006-01-02 15:04:05"`, the hostname is the `fw=([0-9.]+)` capture
(empty when absent), the content is the whole original buffer and the tag
is empty. -/
theorem rfc3164_sonicwall_header (buff osh : Str) (loc : GoZone) (pri : Priority)
    (c : Nat) (ts : GoTime) (tss : Str)
    (hpri : ParsePriority buff 0 = some (pri, c))
    (hfmt : tryTimestampFormats buff c buff.length loc = .ok none)
    (hcisco : hasCiscoClassic buff = false)
    (htime : containsStr buff ("time=\"".data) = true)
    (hcap : sonicTimeCapture buff = some tss)
    (hlay : goParseSonicMST tss loc = some ts ∨
      (goParseSonicMST tss loc = none ∧ goParseSonicPlain tss loc = some ts)) :
    parse3164 buff osh loc =
      .done {priority := pri, version := NO_VERSION,
             header := {timestamp := fixTimestampIfNeeded ts,
                        hostname := (sonicFwCapture buff).getD []},
             tag := [], content := buff} none := by
  have hts : parseTimestamp3164 buff c buff.length loc = .errSonic := by
    unfold parseTimestamp3164
    rw [hfmt, hcisco, htime]
    rfl
  have hsw : parseSonicWallHeader buff loc =
      .ok {timestamp := fixTimestampIfNeeded ts, hostname := (sonicFwCapture buff).getD []} := by
    unfold parseSonicWallHeader
    rw [hcap]
    rcases hlay with h1 | ⟨h1, h2⟩
    · simp only [h1, Option.getD_some]
    · simp only [h1, h2, Option.getD_some]
  unfold parse3164
  simp only [hpri, hts, hsw]

/-- Witness for C6 at a SonicWall log (the shape of
`TestParserSonicWall_Valid`): timestamp from `time="…"`, hostname from
`fw=…`. -/
theorem rfc3164_sonicwall_header_witness :
    parse3164 ("<34>id=fw sn=18B fw=10.205.123.15 time=\"2016-08-19 18:05:44 UTC\" c=32".data)
        [] .utc =
      .done {priority := ⟨34, 4, 2⟩, version := NO_VERSION,
             header := {timestamp := .date 2016 8 19 18 5 44 0 .utc,
                        hostname := "10.205.123.15".data},
             tag := [],
             content := "<34>id=fw sn=18B fw=10.205.123.15 time=\"2016-08-19 18:05:44 UTC\" c=32".data}
        none := by
  have h := rfc3164_sonicwall_header
    ("<34>id=fw sn=18B fw=10.205.123.15 time=\"2016-08-19 18:05:44 UTC\" c=32".data)
    [] .utc ⟨34, 4, 2⟩ 4 (.date 2016 8 19 18 5 44 0 .utc) ("2016-08-19 18:05:44 UTC".data)
    (by decide) (by decide) (by decide) (by decide) (by decide) (Or.inl (by decide))
  rw [h]
  decide

/-! ### List and digit kit for the constructed-buffer proofs -/

theorem takeWhile_append_all (p : Char → Bool) (xs : Str) (hx : ∀ c ∈ xs, p c = true)
    (c : Char) (hc : p c = false) (ys : Str) : (xs ++ c :: ys).takeWhile p = xs := by
  induction xs with
  | nil => simp [List.takeWhile, hc]
  | cons a t ih =>
      simp only [List.cons_append, List.takeWhile_cons, hx a (by simp)]
      rw [ih (fun d hd => hx d (by simp [hd]))]
      simp

theorem drop_of_append (buff pre suf : Str) (n : Nat) (hb : buff = pre ++ suf)
    (hn : n = pre.length) : buff.drop n = suf := by
  subst hb hn
  exact List.drop_left pre suf

theorem lt_length_of_drop_cons {buff : Str} {n : Nat} {x : Char} {xs : Str}
    (h : buff.drop n = x :: xs) : n < buff.length := by
  have hl := congrArg List.length h
  rw [List.length_drop] at hl
  simp at hl
  omega

theorem digit_ne_dot {c : Char} (h : IsDigit c = true) : c ≠ '.' := by
  intro hc
  subst hc
  simp [IsDigit] at h

/-- Two-digit zero-padded decimal rendering (`"01"`, `"02"` fields). -/
def pad2 (n : Nat) : Str := [Nat.digitChar (n / 10 % 10), Nat.digitChar (n % 10)]

/-- Four-digit zero-padded decimal rendering (`"2006"` field). -/
def pad4 (n : Nat) : Str :=
  [Nat.digitChar (n / 1000 % 10), Nat.digitChar (n / 100 % 10),
   Nat.digitChar (n / 10 % 10), Nat.digitChar (n % 10)]

/-- The day-onward tail `-DDTHH:MM:SSZ` of a constructed timestamp. -/
def fmtTailD (d h mi s : Nat) : Str :=
  '-' :: (pad2 d ++ ('T' :: (pad2 h ++ (':' :: (pad2 mi ++ (':' :: (pad2 s ++ ['Z'])))))))

/-- A Cisco-ASA RFC 5424-variant timestamp `YYYY-MM-DDTHH:MM:SSZ`. -/
def fmt20 (y mo d h mi s : Nat) : Str :=
  pad4 y ++ ('-' :: (pad2 mo ++ fmtTailD d h mi s))

theorem getnum4_pad4 (y : Nat) (hy : y < 10000) (r : Str) :
    getnum4 (pad4 y ++ r) = some (y, r) := by
  have h1 : y / 1000 % 10 < 10 := Nat.mod_lt _ (by omega)
  have h2 : y / 100 % 10 < 10 := Nat.mod_lt _ (by omega)
  have h3 : y / 10 % 10 < 10 := Nat.mod_lt _ (by omega)
  have h4 : y % 10 < 10 := Nat.mod_lt _ (by omega)
  simp only [pad4, List.cons_append, List.nil_append, getnum4,
    isDigit_digitChar h1, isDigit_digitChar h2, isDigit_digitChar h3, isDigit_digitChar h4,
    dval_digitChar h1, dval_digitChar h2, dval_digitChar h3, dval_digitChar h4,
    Bool.and_self, if_true]
  have : 1000 * (y / 1000 % 10) + 100 * (y / 100 % 10) + 10 * (y / 10 % 10) + y % 10 = y := by
    omega
  rw [this]

theorem getnum2_pad2 (n : Nat) (hn : n < 100) (r : Str) :
    getnum2 (pad2 n ++ r) = some (n, r) := by
  have h1 : n / 10 % 10 < 10 := Nat.mod_lt _ (by omega)
  have h2 : n % 10 < 10 := Nat.mod_lt _ (by omega)
  simp only [pad2, List.cons_append, List.nil_append, getnum2,
    isDigit_digitChar h1, isDigit_digitChar h2, dval_digitChar h1, dval_digitChar h2,
    Bool.and_self, if_true]
  have : 10 * (n / 10 % 10) + n % 10 = n := by omega
  rw [this]

theorem getnumFlex_pad2 (n : Nat) (hn : n < 100) (r : Str) :
    getnumFlex (pad2 n ++ r) = some (n, r) := by
  have h1 : n / 10 % 10 < 10 := Nat.mod_lt _ (by omega)
  have h2 : n % 10 < 10 := Nat.mod_lt _ (by omega)
  simp only [pad2, List.cons_append, List.nil_append, getnumFlex,
    isDigit_digitChar h1, isDigit_digitChar h2, dval_digitChar h1, dval_digitChar h2, if_true]
  have : 10 * (n / 10 % 10) + n % 10 = n := by omega
  rw [this]

theorem daysIn_le (mo y : Nat) : daysIn mo y ≤ 31 := by
  unfold daysIn
  split
  · split <;> omega
  · split <;> omega

/-- `time.Parse(time.RFC3339, ·)` accepts every in-range constructed
`YYYY-MM-DDTHH:MM:SSZ` timestamp and yields its components in UTC. -/
theorem goParseRFC3339_fmt20 (y mo d h mi s : Nat) (hy : y < 10000)
    (hmo1 : 1 ≤ mo) (hmo2 : mo ≤ 12) (hd1 : 1 ≤ d) (hd2 : d ≤ daysIn mo y)
    (hh : h ≤ 23) (hmi : mi ≤ 59) (hs : s ≤ 59) :
    goParseRFC3339 (fmt20 y mo d h mi s) = some (.date y mo d h mi s 0 .utc) := by
  have hz1 : readOptFrac ['Z'] = some (0, ['Z']) := rfl
  have hz2 : readISO8601Zone ['Z'] = some (.utc, []) := rfl
  have hcond : (1 ≤ mo && mo ≤ 12 && 1 ≤ d && d ≤ daysIn mo y && h ≤ 23 && mi ≤ 59 &&
      s ≤ 59) = true := by
    simp only [Bool.and_eq_true, decide_eq_true_eq]
    exact ⟨⟨⟨⟨⟨⟨hmo1, hmo2⟩, hd1⟩, hd2⟩, hh⟩, hmi⟩, hs⟩
  unfold goParseRFC3339 fmt20 fmtTailD
  simp only [getnum4_pad4 y hy, getnum2_pad2 mo (show mo < 100 by omega),
    getnum2_pad2 d (show d < 100 by have := daysIn_le mo y; omega),
    getnumFlex_pad2 h (show h < 100 by omega),
    getnum2_pad2 mi (show mi < 100 by omega), getnum2_pad2 s (show s < 100 by omega),
    hz1, hz2, mkDate, hcond, if_true]

theorem isDigit_digitChar_mod (a : Nat) : IsDigit (Nat.digitChar (a % 10)) = true :=
  isDigit_digitChar (Nat.mod_lt _ (by omega))

theorem digit_ne_dash {c : Char} (h : IsDigit c = true) : ¬ c = '-' := by
  intro hc
  subst hc
  simp [IsDigit] at h

/-- The priority scanner on a well-formed constructed `<PRI>` prefix. -/
theorem ParsePriority_construct (pds tail : Str)
    (hpd : ∀ c ∈ pds, IsDigit c = true) (h1 : 1 ≤ pds.length) (h3 : pds.length ≤ 3)
    (hv : valD pds ≤ 191) :
    ParsePriority ('<' :: (pds ++ '>' :: tail)) 0 =
      some (⟨valD pds, valD pds / 8, valD pds % 8⟩, pds.length + 2) := by
  have hds : (pds ++ '>' :: tail).takeWhile IsDigit = pds :=
    takeWhile_append_all IsDigit pds hpd '>' (by decide) tail
  have hdr : (pds ++ '>' :: tail).drop pds.length = '>' :: tail := List.drop_left _ _
  have hcond : (1 ≤ pds.length && pds.length ≤ 3) = true := by
    simp only [Bool.and_eq_true, decide_eq_true_eq]
    exact ⟨h1, h3⟩
  unfold ParsePriority
  simp only [List.drop_zero, hds, hdr, hcond, if_true]
  simp [hv, Nat.zero_add]

/-- The single-digit version scanner at a digit byte. -/
theorem ParseVersion_at (buff : Str) (c : Nat) (v : Char) (t : Str)
    (hdrop : buff.drop c = v :: t) (hv : IsDigit v = true) :
    ParseVersion buff c = some ((dval v : Int), c + 1) := by
  unfold ParseVersion
  rw [hdrop]
  simp [hv]

/-- `isUnixTimestamp` is false when only two digits precede a dash. -/
theorem isUnix_false_two_digits (buff : Str) (c : Nat) (a b : Char) (t : Str)
    (hdrop : buff.drop c = a :: b :: '-' :: t)
    (ha : IsDigit a = true) (hb : IsDigit b = true) :
    isUnixTimestamp buff c = false := by
  have hdash : IsDigit '-' = false := by decide
  unfold isUnixTimestamp
  rw [hdrop]
  simp [List.takeWhile_cons, ha, hb, hdash]

/-- `parseYear` raises the Cisco-ASA sentinel when the four bytes at the
cursor contain the dash of a shifted year field and the whole buffer
matches the Cisco pattern. -/
theorem parseYear_cisco (buff : Str) (c : Nat) (a b m1 : Char) (t2 : Str)
    (hdrop : buff.drop c = a :: b :: '-' :: m1 :: t2)
    (hcap : checkCiscoASA5424 buff = true) :
    parseYear buff c buff.length = .err .ciscoASARFC5424 := by
  have hclen : c + 4 ≤ buff.length := by
    have hl := congrArg List.length hdrop
    rw [List.length_drop] at hl
    simp at hl
    omega
  unfold parseYear
  rw [if_neg (by omega)]
  have htake : (buff.drop c).take 4 = [a, b, '-', m1] := by
    rw [hdrop]
    rfl
  rw [htake]
  have hatoi : goAtoi [a, b, '-', m1] = none := by
    simp [goAtoi, IsDigit]
  rw [hatoi, hcap]
  rfl

/-- The Cisco-ASA capture on a constructed buffer. -/
theorem ciscoCapture5424_construct (pds : Str) (y mo d h mi s : Nat) (rest : Str)
    (hpd : ∀ c ∈ pds, IsDigit c = true) (h1 : 1 ≤ pds.length) :
    ciscoCapture5424 ('<' :: (pds ++ '>' :: (fmt20 y mo d h mi s ++ rest))) =
      some (fmt20 y mo d h mi s) := by
  have hds : (pds ++ '>' :: (fmt20 y mo d h mi s ++ rest)).takeWhile IsDigit = pds :=
    takeWhile_append_all IsDigit pds hpd '>' (by decide) _
  have hdr : (pds ++ '>' :: (fmt20 y mo d h mi s ++ rest)).drop pds.length =
      '>' :: (fmt20 y mo d h mi s ++ rest) := List.drop_left _ _
  have hne : pds ≠ [] := by
    cases pds with
    | nil => simp at h1
    | cons a t => simp
  unfold ciscoCapture5424
  simp only [hds, hdr, hne, if_false]
  simp [ciscoShape20, fmt20, fmtTailD, pad4, pad2, isDigit_digitChar_mod]

/-- C5 counterexample. The buffer `"<999>2018-06-27T12:17:46Z"` matches
the claim's pattern `^<digits>YYYY-MM-DDTHH:MM:SSZ`, yet `Parse` fails:
the priority 999 is outside `[0,191]`, so the scan never reaches the
Cisco-ASA rescue and no success with `version = 1` is produced. -/
theorem rfc5424_ciscoASA_variant_counterexample :
    checkCiscoASA5424 ("<999>2018-06-27T12:17:46Z".data) = true ∧
    parse5424 ("<999>2018-06-27T12:17:46Z".data) =
      .done {header := {timestamp := .nowRounded}, structuredData := [],
             message := "<999>2018-06-27T12:17:46Z".data, isUnixTimestamp := false}
        (some .priorityFormat) := by
  constructor
  · decide
  · decide

/-- C5 (amended). Every buffer of the Cisco-ASA RFC 5424-variant shape
`<PRI>` followed immediately by a calendar-valid `YYYY-MM-DDTHH:MM:SSZ`
timestamp — with a priority of one to three digits and value at most 191,
which `ParsePriority` requires, and with fields in the ranges Go's
RFC 3339 parser accepts — parses successfully with that timestamp in the
header, `version = 1`, `structured_data = "-"`, and no further header
field consumed (hostname, app-name, proc-id, msg-id all empty), for any
trailing bytes. -/
theorem rfc5424_ciscoASA_variant (pds : Str) (y mo d h mi s : Nat) (rest : Str)
    (hpd : ∀ c ∈ pds, IsDigit c = true) (h1 : 1 ≤ pds.length) (h3 : pds.length ≤ 3)
    (hv : valD pds ≤ 191) (hy : y < 10000)
    (hmo1 : 1 ≤ mo) (hmo2 : mo ≤ 12) (hd1 : 1 ≤ d) (hd2 : d ≤ daysIn mo y)
    (hh : h ≤ 23) (hmi : mi ≤ 59) (hs : s ≤ 59) :
    parse5424 ('<' :: (pds ++ '>' :: (fmt20 y mo d h mi s ++ rest))) =
      .done {header := {priority := ⟨valD pds, valD pds / 8, valD pds % 8⟩, version := 1,
                        timestamp := .date y mo d h mi s 0 .utc},
             structuredData := ['-'],
             message := '<' :: (pds ++ '>' :: (fmt20 y mo d h mi s ++ rest)),
             isUnixTimestamp := false} none := by
  have hpri := ParsePriority_construct pds (fmt20 y mo d h mi s ++ rest) hpd h1 h3 hv
  have hcap := ciscoCapture5424_construct pds y mo d h mi s rest hpd h1
  have hb2 : '<' :: (pds ++ '>' :: (fmt20 y mo d h mi s ++ rest)) =
      ('<' :: pds ++ ['>']) ++
        (Nat.digitChar (y / 1000 % 10) ::
          ((Nat.digitChar (y / 100 % 10) :: Nat.digitChar (y / 10 % 10) ::
            Nat.digitChar (y % 10) :: ('-' :: (pad2 mo ++ fmtTailD d h mi s))) ++ rest)) := by
    simp [fmt20, pad4, pad2]
  have hdp2 : ('<' :: (pds ++ '>' :: (fmt20 y mo d h mi s ++ rest))).drop (pds.length + 2) =
      Nat.digitChar (y / 1000 % 10) ::
        ((Nat.digitChar (y / 100 % 10) :: Nat.digitChar (y / 10 % 10) ::
          Nat.digitChar (y % 10) :: ('-' :: (pad2 mo ++ fmtTailD d h mi s))) ++ rest) := by
    rw [hb2]
    exact drop_of_append _ _ _ _ rfl
      (by simp only [List.cons_append, List.length_cons, List.length_append,
        List.length_nil])
  have hver : ParseVersion ('<' :: (pds ++ '>' :: (fmt20 y mo d h mi s ++ rest)))
      (pds.length + 2) =
      some ((dval (Nat.digitChar (y / 1000 % 10)) : Int), pds.length + 2 + 1) :=
    ParseVersion_at _ _ _ _ hdp2 (isDigit_digitChar_mod (y / 1000))
  have hb4 : '<' :: (pds ++ '>' :: (fmt20 y mo d h mi s ++ rest)) =
      ('<' :: pds ++ ['>', Nat.digitChar (y / 1000 % 10), Nat.digitChar (y / 100 % 10)]) ++
        (Nat.digitChar (y / 10 % 10) :: Nat.digitChar (y % 10) :: '-' ::
          Nat.digitChar (mo / 10 % 10) ::
            ((Nat.digitChar (mo % 10) :: fmtTailD d h mi s) ++ rest)) := by
    simp [fmt20, pad4, pad2]
  have hdp4 : ('<' :: (pds ++ '>' :: (fmt20 y mo d h mi s ++ rest))).drop (pds.length + 4) =
      Nat.digitChar (y / 10 % 10) :: Nat.digitChar (y % 10) :: '-' ::
        Nat.digitChar (mo / 10 % 10) ::
          ((Nat.digitChar (mo % 10) :: fmtTailD d h mi s) ++ rest) := by
    rw [hb4]
    exact drop_of_append _ _ _ _ rfl
      (by simp only [List.cons_append, List.length_cons, List.length_append,
        List.length_nil])
  have hlt : pds.length + 4 < ('<' :: (pds ++ '>' :: (fmt20 y mo d h mi s ++ rest))).length :=
    lt_length_of_drop_cons hdp4
  have hfd : parseFullDate ('<' :: (pds ++ '>' :: (fmt20 y mo d h mi s ++ rest)))
      (pds.length + 4) ('<' :: (pds ++ '>' :: (fmt20 y mo d h mi s ++ rest))).length =
      .err .ciscoASARFC5424 := by
    unfold parseFullDate
    rw [parseYear_cisco _ _ _ _ _ _ hdp4
      (by unfold checkCiscoASA5424; rw [hcap]; rfl)]
  have hne1 : (Nat.digitChar (y / 10 % 10) = '-') = False :=
    eq_false (digit_ne_dash (isDigit_digitChar_mod (y / 10)))
  have hu := isUnix_false_two_digits _ _ _ _ _ hdp4
    (isDigit_digitChar_mod _) (isDigit_digitChar_mod _)
  have hts : parseTimestamp5424 ('<' :: (pds ++ '>' :: (fmt20 y mo d h mi s ++ rest)))
      (pds.length + 4) ('<' :: (pds ++ '>' :: (fmt20 y mo d h mi s ++ rest))).length =
      .cisco (.date y mo d h mi s 0 .utc) := by
    unfold parseTimestamp5424
    rw [if_neg (by omega)]
    simp only [hdp4, List.head?_cons, hne1, if_false, hu, Bool.false_eq_true, hfd, hcap,
      goParseRFC3339_fmt20 y mo d h mi s hy hmo1 hmo2 hd1 hd2 hh hmi hs]
  unfold parse5424 parseHeader5424
  simp only [hpri, hver]
  rw [show pds.length + 2 + 1 + 1 = pds.length + 4 from by omega]
  simp only [hts]

/-- Witness for C5 at the test input of `TestParserCiscoASA_Valid_RFC5424`
(`<166>2018-06-27T12:17:46Z …`), instantiating the amended claim. -/
theorem rfc5424_ciscoASA_variant_witness :
    parse5424 ('<' :: ("166".data ++ '>' :: (fmt20 2018 6 27 12 17 46 ++ " asa : x".data))) =
      .done {header := {priority := ⟨166, 20, 6⟩, version := 1,
                        timestamp := .date 2018 6 27 12 17 46 0 .utc},
             structuredData := ['-'],
             message := '<' :: ("166".data ++ '>' :: (fmt20 2018 6 27 12 17 46 ++ " asa : x".data)),
             isUnixTimestamp := false} none := by
  have h := rfc5424_ciscoASA_variant ("166".data) 2018 6 27 12 17 46 (" asa : x".data)
    (by decide) (by decide) (by decide) (by decide) (by decide)
    (by decide) (by decide) (by decide) (by decide) (by decide) (by decide) (by decide)
  exact h

theorem takeWhile_take (p : Char → Bool) (xs : Str) :
    ∀ n, (xs.take n).takeWhile p = (xs.takeWhile p).take n := by
  induction xs with
  | nil => intro n; simp
  | cons a t ih =>
      intro n
      cases n with
      | zero => simp
      | succ m =>
          simp only [List.take_cons_succ, List.takeWhile_cons]
          by_cases hp : p a = true
          · simp [hp, ih m]
          · simp [hp]

theorem takeWhile_ne_dot (xs : Str) (hx : ∀ ch ∈ xs, IsDigit ch = true) (ys : Str) :
    (xs ++ '.' :: ys).takeWhile (fun c => c ≠ '.') = xs := by
  apply takeWhile_append_all
  · intro ch hch
    simpa using digit_ne_dot (hx ch hch)
  · simp

/-- The shared hostname scanner at a space-terminated token. -/
theorem ParseHostnameCore_at (buff : Str) (c : Nat) (host T : Str)
    (hdrop : buff.drop c = host ++ (' ' :: T)) (hh : ∀ ch ∈ host, ch ≠ ' ') :
    ParseHostnameCore buff c = some (host, c + host.length) := by
  have hlen := congrArg List.length hdrop
  rw [List.length_drop] at hlen
  simp at hlen
  unfold ParseHostnameCore
  rw [if_neg (by omega), hdrop, takeWhile_until_space host hh T]

/-- `parseUpToLen` finds a space-terminated token within its window. -/
theorem parseUpToLen_found (buff : Str) (c l maxLen : Nat) (tok T : Str)
    (hdrop : buff.drop c = tok ++ (' ' :: T)) (ht : ∀ ch ∈ tok, ch ≠ ' ')
    (hL : tok.length ≤ maxLen) :
    parseUpToLen buff c l maxLen = .found tok (c + tok.length) := by
  have htw : ((tok ++ (' ' :: T)).take (maxLen + 1)).takeWhile (fun ch => ch ≠ ' ') = tok := by
    rw [takeWhile_take, takeWhile_until_space tok ht T, List.take_of_length_le (by omega)]
  unfold parseUpToLen
  rw [hdrop]
  simp only [htw]
  rw [if_pos (by simp only [List.length_take, List.length_append, List.length_cons]; omega)]

/-- `parseUnixTimestamp` on digits, a dot, fractional digits, and a
space. -/
theorem parseUnixTimestamp_at (buff : Str) (c : Nat) (s0 : Char) (S F T : Str)
    (hdrop : buff.drop c = (s0 :: S) ++ ('.' :: (F ++ (' ' :: T))))
    (hS : ∀ ch ∈ (s0 :: S), IsDigit ch = true)
    (hb : valD (s0 :: S) < 2 ^ 63)
    (hF : ∀ ch ∈ F, IsDigit ch = true) :
    parseUnixTimestamp buff c buff.length =
      .ok (.unixFrac (valD (s0 :: S)) F, c + (s0 :: S).length + 1 + F.length) := by
  have hint := takeWhile_ne_dot (s0 :: S) hS (F ++ (' ' :: T))
  have hfrac := takeWhile_append_all IsDigit F hF ' ' (by decide) T
  have hg : goParseInt64 (s0 :: S) = some (valD (s0 :: S)) := by
    have hb2 : valD (s0 :: S) < 9223372036854775808 := by simpa using hb
    unfold goParseInt64
    simp [List.all_eq_true.mpr hS, hb2]
  unfold parseUnixTimestamp
  simp only [hdrop, hint, List.drop_left, hfrac, hg]

/-- The RFC 5424 timestamp sub-parser takes the Unix-epoch branch on at
least ten digits, a dot, fractional digits, and a space. -/
theorem parseTimestamp5424_unix (buff : Str) (c : Nat) (s0 : Char) (S F T : Str)
    (hdrop : buff.drop c = (s0 :: S) ++ ('.' :: (F ++ (' ' :: T))))
    (hS : ∀ ch ∈ (s0 :: S), IsDigit ch = true)
    (h10 : 10 ≤ (s0 :: S).length)
    (hb : valD (s0 :: S) < 2 ^ 63)
    (hF : ∀ ch ∈ F, IsDigit ch = true) :
    parseTimestamp5424 buff c buff.length =
      .ok (.unixFrac (valD (s0 :: S)) F) (c + (s0 :: S).length + 1 + F.length) true := by
  have hlen := congrArg List.length hdrop
  rw [List.length_drop] at hlen
  simp at hlen
  have hd0 : (buff.drop c).head? = some s0 := by
    rw [hdrop]
    simp
  have hne0 : (s0 = '-') = False := eq_false (digit_ne_dash (hS s0 (by simp)))
  have hunix : isUnixTimestamp buff c = true := by
    unfold isUnixTimestamp
    rw [hdrop, takeWhile_append_all IsDigit (s0 :: S) hS '.' (by decide) (F ++ (' ' :: T))]
    simpa using h10
  unfold parseTimestamp5424
  rw [if_neg (by omega)]
  simp only [hd0, hne0, if_false, hunix, if_true,
    parseUnixTimestamp_at buff c s0 S F T hdrop hS hb hF]

/-- C4 counterexample. The buffer `"<34>1 1234567890 host app proc msg - hello"`
holds ten digits at the timestamp position terminated by a non-digit (a
space), yet `Parse` fails with an integer-conversion error — the dotless
branch of `parseUnixTimestamp` feeds the whole remaining buffer to
`strconv.ParseInt` — and `structured_data` is `""`, not `"-"`. -/
theorem rfc5424_unix_timestamp_counterexample :
    isUnixTimestamp ("<34>1 1234567890 host app proc msg - hello".data) 6 = true ∧
    parse5424 ("<34>1 1234567890 host app proc msg - hello".data) =
      .done {header := {timestamp := .nowRounded}, structuredData := [],
             message := "<34>1 1234567890 host app proc msg - hello".data,
             isUnixTimestamp := true} (some .unixIntInvalid) := by
  constructor
  · decide
  · decide

/-- C4 (amended). When the timestamp field holds at least ten decimal
digits terminated by a dot (with the fractional digit run ending at the
field's space) and the remaining header fields are well-formed
space-terminated tokens within their length limits, `Parse` succeeds,
interprets the integer part as seconds since the Unix epoch with the
fractional digits retained for the `float64` nanosecond conversion, skips
structured-data parsing entirely (any trailing bytes, structured data or
not, are never scanned), and `Dump` emits `structured_data = "-"`.  (A
digit run terminated by a non-dot non-digit instead makes `Parse` fail,
because the integer parser receives the whole remaining buffer.) -/
theorem rfc5424_unix_timestamp (pds : Str) (v s0 : Char) (S F host app pr ms rest : Str)
    (hpd : ∀ c ∈ pds, IsDigit c = true) (h1 : 1 ≤ pds.length) (h3 : pds.length ≤ 3)
    (hv : valD pds ≤ 191) (hvd : IsDigit v = true)
    (hS : ∀ ch ∈ (s0 :: S), IsDigit ch = true) (h10 : 10 ≤ (s0 :: S).length)
    (hb : valD (s0 :: S) < 2 ^ 63)
    (hF : ∀ ch ∈ F, IsDigit ch = true)
    (hhost : ∀ ch ∈ host, ch ≠ ' ')
    (happ : ∀ ch ∈ app, ch ≠ ' ') (happL : app.length ≤ 48)
    (hpr : ∀ ch ∈ pr, ch ≠ ' ') (hprL : pr.length ≤ 128)
    (hms : ∀ ch ∈ ms, ch ≠ ' ') (hmsL : ms.length ≤ 32) :
    parse5424 ('<' :: (pds ++ ('>' :: (v :: (' ' :: ((s0 :: S) ++ ('.' :: (F ++ (' ' :: (host ++ (' ' :: (app ++ (' ' :: (pr ++ (' ' :: (ms ++ (' ' :: (rest)))))))))))))))))) =
      .done {header := {priority := ⟨valD pds, valD pds / 8, valD pds % 8⟩,
                        version := (dval v : Int),
                        timestamp := .unixFrac (valD (s0 :: S)) F,
                        hostname := host, appName := app, procId := pr, msgId := ms},
             structuredData := ['-'],
             message := '<' :: (pds ++ ('>' :: (v :: (' ' :: ((s0 :: S) ++ ('.' :: (F ++ (' ' :: (host ++ (' ' :: (app ++ (' ' :: (pr ++ (' ' :: (ms ++ (' ' :: (rest))))))))))))))))),
             isUnixTimestamp := true} none := by
  have hpri := ParsePriority_construct pds
    (v :: (' ' :: ((s0 :: S) ++ ('.' :: (F ++ (' ' :: (host ++ (' ' :: (app ++ (' ' :: (pr ++ (' ' :: (ms ++ (' ' :: (rest)))))))))))))))
    hpd h1 h3 hv
  have hdp2 : ('<' :: (pds ++ ('>' :: (v :: (' ' :: ((s0 :: S) ++ ('.' :: (F ++ (' ' :: (host ++ (' ' :: (app ++ (' ' :: (pr ++ (' ' :: (ms ++ (' ' :: (rest)))))))))))))))))).drop
      (pds.length + 2) = v :: (' ' :: ((s0 :: S) ++ ('.' :: (F ++ (' ' :: (host ++ (' ' :: (app ++ (' ' :: (pr ++ (' ' :: (ms ++ (' ' :: (rest)))))))))))))) :=
    drop_of_append _ ('<' :: pds ++ ['>']) _ _ (by simp)
      (by simp only [List.cons_append, List.length_cons, List.length_append, List.length_nil])
  have hver := ParseVersion_at _ (pds.length + 2) v _ hdp2 hvd
  have hdp4 : ('<' :: (pds ++ ('>' :: (v :: (' ' :: ((s0 :: S) ++ ('.' :: (F ++ (' ' :: (host ++ (' ' :: (app ++ (' ' :: (pr ++ (' ' :: (ms ++ (' ' :: (rest)))))))))))))))))).drop
      (pds.length + 4) = (s0 :: S) ++ ('.' :: (F ++ (' ' :: (host ++ (' ' :: (app ++ (' ' :: (pr ++ (' ' :: (ms ++ (' ' :: (rest)))))))))))) :=
    drop_of_append _ ('<' :: pds ++ ['>', v, ' ']) _ _ (by simp)
      (by simp only [List.cons_append, List.length_cons, List.length_append, List.length_nil])
  have hts := parseTimestamp5424_unix _ (pds.length + 4) s0 S F
    (host ++ (' ' :: (app ++ (' ' :: (pr ++ (' ' :: (ms ++ (' ' :: (rest)))))))))
    hdp4 hS h10 hb hF
  have hdph : ('<' :: (pds ++ ('>' :: (v :: (' ' :: ((s0 :: S) ++ ('.' :: (F ++ (' ' :: (host ++ (' ' :: (app ++ (' ' :: (pr ++ (' ' :: (ms ++ (' ' :: (rest)))))))))))))))))).drop
      (pds.length + 4 + (s0 :: S).length + 1 + F.length + 1) = host ++ (' ' :: (app ++ (' ' :: (pr ++ (' ' :: (ms ++ (' ' :: (rest)))))))) :=
    drop_of_append _ ('<' :: pds ++ ('>' :: (v :: (' ' :: ((s0 :: S) ++ ('.' :: (F ++ [' '])))))) ) _ _ (by simp)
      (by simp only [List.cons_append, List.length_cons, List.length_append,
        List.length_nil]; omega)
  have hhost2 := ParseHostnameCore_at _ (pds.length + 4 + (s0 :: S).length + 1 + F.length + 1)
    host (app ++ (' ' :: (pr ++ (' ' :: (ms ++ (' ' :: (rest))))))) hdph hhost
  have hdpa : ('<' :: (pds ++ ('>' :: (v :: (' ' :: ((s0 :: S) ++ ('.' :: (F ++ (' ' :: (host ++ (' ' :: (app ++ (' ' :: (pr ++ (' ' :: (ms ++ (' ' :: (rest)))))))))))))))))).drop
      (pds.length + 4 + (s0 :: S).length + 1 + F.length + 1 + host.length + 1) = app ++ (' ' :: (pr ++ (' ' :: (ms ++ (' ' :: (rest)))))) :=
    drop_of_append _ ('<' :: pds ++ ('>' :: (v :: (' ' :: ((s0 :: S) ++ ('.' :: (F ++ (' ' :: (host ++ [' '])))))))) ) _ _ (by simp)
      (by simp only [List.cons_append, List.length_cons, List.length_append,
        List.length_nil]; omega)
  have happ2 := parseUpToLen_found _ (pds.length + 4 + (s0 :: S).length + 1 + F.length + 1 + host.length + 1)
    ('<' :: (pds ++ ('>' :: (v :: (' ' :: ((s0 :: S) ++ ('.' :: (F ++ (' ' :: (host ++ (' ' :: (app ++ (' ' :: (pr ++ (' ' :: (ms ++ (' ' :: (rest)))))))))))))))))).length
    48 app (pr ++ (' ' :: (ms ++ (' ' :: (rest))))) hdpa happ happL
  have hdpp : ('<' :: (pds ++ ('>' :: (v :: (' ' :: ((s0 :: S) ++ ('.' :: (F ++ (' ' :: (host ++ (' ' :: (app ++ (' ' :: (pr ++ (' ' :: (ms ++ (' ' :: (rest)))))))))))))))))).drop
      (pds.length + 4 + (s0 :: S).length + 1 + F.length + 1 + host.length + 1 + app.length + 1) = pr ++ (' ' :: (ms ++ (' ' :: (rest)))) :=
    drop_of_append _ ('<' :: pds ++ ('>' :: (v :: (' ' :: ((s0 :: S) ++ ('.' :: (F ++ (' ' :: (host ++ (' ' :: (app ++ [' '])))))))))) ) _ _ (by simp)
      (by simp only [List.cons_append, List.length_cons, List.length_append,
        List.length_nil]; omega)
  have hpr2 := parseUpToLen_found _ (pds.length + 4 + (s0 :: S).length + 1 + F.length + 1 + host.length + 1 + app.length + 1)
    ('<' :: (pds ++ ('>' :: (v :: (' ' :: ((s0 :: S) ++ ('.' :: (F ++ (' ' :: (host ++ (' ' :: (app ++ (' ' :: (pr ++ (' ' :: (ms ++ (' ' :: (rest)))))))))))))))))).length
    128 pr (ms ++ (' ' :: (rest))) hdpp hpr hprL
  have hdpm : ('<' :: (pds ++ ('>' :: (v :: (' ' :: ((s0 :: S) ++ ('.' :: (F ++ (' ' :: (host ++ (' ' :: (app ++ (' ' :: (pr ++ (' ' :: (ms ++ (' ' :: (rest)))))))))))))))))).drop
      (pds.length + 4 + (s0 :: S).length + 1 + F.length + 1 + host.length + 1 + app.length + 1 + pr.length + 1) = ms ++ (' ' :: (rest)) :=
    drop_of_append _ ('<' :: pds ++ ('>' :: (v :: (' ' :: ((s0 :: S) ++ ('.' :: (F ++ (' ' :: (host ++ (' ' :: (app ++ (' ' :: (pr ++ [' '])))))))))))) ) _ _ (by simp)
      (by simp only [List.cons_append, List.length_cons, List.length_append,
        List.length_nil]; omega)
  have hms2 := parseUpToLen_found _ (pds.length + 4 + (s0 :: S).length + 1 + F.length + 1 + host.length + 1 + app.length + 1 + pr.length + 1)
    ('<' :: (pds ++ ('>' :: (v :: (' ' :: ((s0 :: S) ++ ('.' :: (F ++ (' ' :: (host ++ (' ' :: (app ++ (' ' :: (pr ++ (' ' :: (ms ++ (' ' :: (rest)))))))))))))))))).length
    32 ms rest hdpm hms hmsL
  unfold parse5424 parseHeader5424
  simp only [hpri, hver]
  rw [show pds.length + 2 + 1 + 1 = pds.length + 4 from by omega]
  simp only [hts, hhost2, happ2, hpr2, hms2, if_true]

/-- Witness for C4 at the Meraki-style input of spec §8 scenario 2,
instantiating the amended claim at
`<134>1 1701233380.285170542 host app proc msg - hello`. -/
theorem rfc5424_unix_timestamp_witness :
    parse5424 ("<134>1 1701233380.285170542 host app proc msg - hello".data) =
      .done {header := {priority := ⟨134, 16, 6⟩, version := (1 : Int),
                        timestamp := .unixFrac 1701233380 ("285170542".data),
                        hostname := "host".data, appName := "app".data,
                        procId := "proc".data, msgId := "msg".data},
             structuredData := ['-'],
             message := "<134>1 1701233380.285170542 host app proc msg - hello".data,
             isUnixTimestamp := true} none := by
  have h := rfc5424_unix_timestamp ("134".data) '1' '1' ("701233380".data)
    ("285170542".data) ("host".data) ("app".data) ("proc".data) ("msg".data) ("- hello".data)
    (by decide) (by decide) (by decide) (by decide) (by decide) (by decide) (by decide)
    (by decide) (by decide) (by decide) (by decide) (by decide) (by decide) (by decide)
    (by decide) (by decide)
  exact h

/-- C10. The RFC 3164 `Parse` is not total: on `"<13>"` the priority
scanner succeeds with the cursor at the buffer end, and the first-byte
read at the start of `parseTimestamp` indexes one past the end — a Go
runtime panic, modelled as `fault`. -/
theorem rfc3164_parse_faults_after_pri :
    parse3164 ("<13>".data) [] .utc = .fault ∧
    ParsePriority ("<13>".data) 0 = some (⟨13, 1, 5⟩, 4) ∧
    ("<13>".data).length = 4 := by
  decide

end GoSyslog
